import Mathlib

/-!
# maestro-cli: the remote tool-invocation client

A shallow embedding of `internal/common/mcp_client.go`: the endpoint resolver
(`normalizeURL`, `GetMaestroMCPServerURI`) and the call path of a session
(`MCPClient.CallMCPServer`) with its response classification; and of its callers:
`ParseYAML` (`internal/common/yaml.go`), `sanitizeName` (`internal/commands/create_cr.go`)
and the commands of `create.go`, `deploy.go`, `run.go` and `serve.go`.

Conventions of the embedding.

* A Go `string` is a Lean `String`. Every pattern the code searches for is ASCII,
  so searching by character agrees with Go's search by byte on UTF-8 text.
* A Go `error` is its message (`err.Error()`), a `String`.
* A Go `interface{}` value is a `GoValue`; `GoValue.nil` is the nil interface.
* What the code obtains from outside (the `.env` file, the process environment,
  the transport of the `mcp-go` client, `json.Unmarshal`) is an explicit argument.
-/

/-! ## The functions of Go's `strings` package that the code calls -/

namespace strings

/-- Go `strings.HasPrefix(s, prefix)`. -/
def HasPrefix (s pre : String) : Bool := pre.data.isPrefixOf s.data

/-- Go `strings.HasSuffix(s, suffix)`. -/
def HasSuffix (s suf : String) : Bool := suf.data.isSuffixOf s.data

/-- Go `strings.TrimSuffix(s, suffix)`: `s` without the trailing `suffix`, or `s` itself
when it does not end with `suffix`. -/
def TrimSuffix (s suf : String) : String :=
  if HasSuffix s suf then ⟨s.data.take (s.data.length - suf.data.length)⟩ else s

/-- Whether `sub` occurs in the text at some position (the search loop of
`strings.Index`). -/
def indexFrom (sub : List Char) : List Char → Bool
  | [] => sub.isPrefixOf []
  | c :: t => sub.isPrefixOf (c :: t) || indexFrom sub t

/-- Go `strings.Contains(s, substr)`. -/
def Contains (s sub : String) : Bool := indexFrom sub.data s.data

end strings

/-! ## Endpoint resolver -/

/-- The function `normalizeURL` of `mcp_client.go`: ensures the URL has a protocol prefix
and the MCP endpoint. -/
def normalizeURL (url : String) : String :=
  if strings.HasPrefix url "http://" || strings.HasPrefix url "https://" then
    if !strings.HasSuffix url "/mcp" then
      strings.TrimSuffix url "/" ++ "/mcp"
    else
      url
  else if strings.Contains url ":" then
    "http://" ++ strings.TrimSuffix url "/" ++ "/mcp"
  else
    "http://" ++ url ++ ":8030/mcp"

/-- The process environment (`os.Environ`): the variables that are set, with their values. -/
abbrev Environ := List (String × String)

/-- Go `os.Getenv(key)`: the value of the variable, empty when it is not set. -/
def Getenv (env : Environ) (key : String) : String :=
  (env.lookup key).getD ""

/-- The `.env` file of the working directory, as `GetMaestroMCPServerURI` meets it. -/
inductive DotEnvFile where
  /-- The call `os.Stat(".env")` reports an error: the file is not loaded. -/
  | missing
  /-- The file is there and `godotenv.Load` fails with this error. -/
  | unloadable (err : String)
  /-- The file is there and `godotenv.Load` reads these assignments from it. -/
  | loadable (vars : List (String × String))
  deriving DecidableEq, Repr

/-- The `.env` step of `GetMaestroMCPServerURI`: nothing when `os.Stat(".env")` reports an
error; otherwise `godotenv.Load()`, which fails or sets every variable of the file that the
process environment does not set already (it never overrides). Of two assignments of one
variable in the file the later one counts: the assignments are appended last first, and
`Getenv` reads the first entry of a variable. -/
def godotenvLoad (file : DotEnvFile) (env : Environ) : Except String Environ :=
  match file with
  | .missing => .ok env
  | .unloadable err => .error err
  | .loadable vars => .ok (env ++ (vars.filter (fun kv => (env.lookup kv.1).isNone)).reverse)

/-- The function `GetMaestroMCPServerURI` of `mcp_client.go`: the Go result `(uri, nil)` is
`.ok uri`, the Go result `("", err)` is `.error` with the message of `err`. -/
def GetMaestroMCPServerURI (file : DotEnvFile) (env : Environ) (cmdServerURI : String) :
    Except String String :=
  match godotenvLoad file env with
  | .error err => .error ("failed to load .env file: " ++ err)
  | .ok env1 =>
    let serverURI :=
      if cmdServerURI ≠ "" then cmdServerURI
      else if Getenv env1 "MAESTRO_MAESTRO_MCP_SERVER_URI" ≠ "" then
        Getenv env1 "MAESTRO_MAESTRO_MCP_SERVER_URI"
      else "localhost:8040"
    .ok (normalizeURL serverURI)

/-! ## Values, replies and responses -/

/-- A Go value held in an `interface{}`: what the response carries as `Result`, what a
call takes as `params` and what a YAML document holds. The dynamic types are those
`json.Unmarshal` stores in an `interface{}`, and the two more that the commands use; a
`float64` is kept as the number literal it was converted from, a
`map[string]interface{}` as the list of its entries. -/
inductive GoValue where
  | nil
  | bool (b : Bool)
  | float64 (lit : String)
  | string (s : String)
  | slice (xs : List GoValue)
  | map (kvs : List (String × GoValue))
  /-- A Go `int`, as the commands put in `params`. -/
  | int (n : Int)
  /-- A value of the named type `common.YAMLDocument`. -/
  | doc (kvs : List (String × GoValue))

/-- The type `MCPError` of `mcp_client.go`. -/
structure MCPError where
  Code : Int
  Message : String
  deriving DecidableEq, Repr

/-- The type `MCPResponse` of `mcp_client.go`. `Result` is an `interface{}`: absent means
`GoValue.nil`; `Error` is a pointer: absent means `none`. -/
structure MCPResponse where
  JSONRPC : String
  ID : Int
  Result : GoValue
  Error : Option MCPError

/-- One item of `CallToolResult.Content` (`mcp.Content`): a text, or an item of another
kind (image, audio, embedded resource, ...), for which `mcp.AsTextContent` reports
`ok = false`. -/
inductive Content where
  | text (Text : String)
  | other (kind : String)
  deriving DecidableEq, Repr

/-- The reply `mcp.CallToolResult` of a tool call. -/
structure CallToolResult where
  Content : List Content
  IsError : Bool
  deriving DecidableEq, Repr

/-- Go `mcp.AsTextContent(content)`: the text of a text item. -/
def AsTextContent : Content → Option String
  | .text t => some t
  | .other _ => none

/-- A message the client sends to the server. -/
inductive Message where
  /-- The handshake request, method "initialize". -/
  | init (protocolVersion : String)
  /-- The tool call request. -/
  | callTool (name : String) (arguments : GoValue)

/-- The session `MCPClient`: whether its `client` has completed the handshake
(`c.client.IsInitialized()`), the endpoint `baseURL`, the deadline, in seconds, of its
context `ctx`, whether `cancel` has been called on that context, and whether the
transport of `client` has been closed. The fields `client` and `cancel` are set in every
session: `NewMCPClient` is the only place where one is built. A pointer to a session is
an `Option MCPClient`, `none` being the nil pointer. -/
structure MCPClient where
  initialized : Bool
  baseURL : String
  timeout : Nat
  cancelled : Bool := false
  closed : Bool := false
  deriving DecidableEq, Repr

/-- What the transport answers during one call: the error of `Initialize` (`none` when
the handshake is accepted) and the outcome of `CallTool`, an error or a reply, which may
be the nil pointer. -/
structure Transport where
  initErr : Option String
  callTool : String → GoValue → Except String (Option CallToolResult)

/-- The outcome of one `CallMCPServer`: the Go results `(response, err)`, the session after
the call and the messages sent, in order. -/
structure CallOutcome where
  response : Option MCPResponse
  err : Option String
  client : MCPClient
  sent : List Message

/-- The reachability test that the code applies to the text of a transport error. -/
def isUnreachable (errStr : String) : Bool :=
  strings.Contains errStr "connection refused" ||
  strings.Contains errStr "no such host" ||
  strings.Contains errStr "timeout" ||
  strings.Contains errStr "context deadline exceeded" ||
  strings.Contains errStr "network is unreachable"

/-- The message of the error that names the endpoint. -/
def unreachableMessage (uri : String) : String :=
  "MCP server could not be reached at " ++ uri ++
    ". Please ensure the server is running and accessible"

/-- The sentinel test of `CallMCPServer` on the text of the first content item. -/
def hasErrorSentinel (contentText : String) : Bool :=
  strings.Contains contentText "ValueError:" ||
  strings.Contains contentText "Error:" ||
  strings.Contains contentText "Exception:" ||
  strings.Contains contentText "Error calling tool"

/-- The last part of `CallMCPServer` (from "Convert the response to our format"): the
response built from the reply of a tool call that did not fail. `unmarshal` is
`json.Unmarshal` into an `interface{}`: `none` when it returns an error. -/
def convertResponse (unmarshal : String → Option GoValue)
    (response : Option CallToolResult) : MCPResponse :=
  let result : MCPResponse := { JSONRPC := "2.0", ID := 1, Result := .nil, Error := none }
  match response with
  | none => result
  | some r =>
    match r.Content with
    | [] => result
    | first :: _ =>
      match AsTextContent first with
      | none => result
      | some contentText =>
        if hasErrorSentinel contentText then
          { result with Error := some { Code := -1, Message := contentText } }
        else
          match unmarshal contentText with
          | some jsonResult => { result with Result := jsonResult }
          | none => { result with Result := .string contentText }

/-- The method `MCPClient.CallMCPServer` of `mcp_client.go`. -/
def CallMCPServer (unmarshal : String → Option GoValue) (tr : Transport) (c : MCPClient)
    (method : String) (params : GoValue) : CallOutcome :=
  let afterInit (c1 : MCPClient) (sent : List Message) : CallOutcome :=
    let sent1 := sent ++ [Message.callTool method params]
    match tr.callTool method params with
    | .error errStr =>
      if isUnreachable errStr then
        { response := none, err := some (unreachableMessage c1.baseURL),
          client := c1, sent := sent1 }
      else
        { response := none,
          err := some ("failed to call MCP tool " ++ method ++ ": " ++ errStr),
          client := c1, sent := sent1 }
    | .ok response =>
      { response := some (convertResponse unmarshal response), err := none,
        client := c1, sent := sent1 }
  if !c.initialized then
    match tr.initErr with
    | some errStr =>
      if isUnreachable errStr then
        { response := none, err := some (unreachableMessage c.baseURL),
          client := c, sent := [Message.init "2024-11-05"] }
      else
        { response := none, err := some ("failed to initialize MCP client: " ++ errStr),
          client := c, sent := [Message.init "2024-11-05"] }
    | none => afterInit { c with initialized := true } [Message.init "2024-11-05"]
  else
    afterInit c []

/-! ## A decoder for `json.Unmarshal` -/

namespace json

/-- The white space of JSON (`isSpace` of `encoding/json`). -/
def isSpace (c : Char) : Bool := c == ' ' || c == '\t' || c == '\r' || c == '\n'

/-- Drops leading white space. -/
def skipSpace : List Char → List Char
  | [] => []
  | c :: cs => if isSpace c then skipSpace cs else c :: cs

/-- The value of a hexadecimal digit. -/
def hexVal (c : Char) : Option Nat :=
  if '0' ≤ c ∧ c ≤ '9' then some (c.toNat - '0'.toNat)
  else if 'a' ≤ c ∧ c ≤ 'f' then some (c.toNat - 'a'.toNat + 10)
  else if 'A' ≤ c ∧ c ≤ 'F' then some (c.toNat - 'A'.toNat + 10)
  else none

/-- Reads `\uXXXX` at the head of the text (`getu4`): the code unit and the rest. -/
def getu4 : List Char → Option (Nat × List Char)
  | '\\' :: 'u' :: a :: b :: c :: d :: rest =>
    match hexVal a, hexVal b, hexVal c, hexVal d with
    | some x, some y, some z, some w => some (((x * 16 + y) * 16 + z) * 16 + w, rest)
    | _, _, _, _ => none
  | _ => none

/-- The one-letter escapes of a string literal, each with the character it stands for. -/
def escapeTable : List (Char × Char) :=
  [('b', Char.ofNat 8), ('f', Char.ofNat 12), ('n', Char.ofNat 10), ('r', Char.ofNat 13),
   ('t', Char.ofNat 9), ('\\', '\\'), ('/', '/'), ('"', '"')]

/-- The character of a one-letter escape, if it is one. -/
def escapeChar (e : Char) : Option Char := escapeTable.lookup e

/-- The body of a string literal, after its opening quote: the decoded string and the text
after the closing quote. A surrogate pair of `\u` escapes is one character, a lone
surrogate is U+FFFD; a control character is an error. -/
def parseString : Nat → List Char → List Char → Option (String × List Char)
  | 0, _, _ => none
  | _ + 1, [], _ => none
  | fuel + 1, c :: cs, acc =>
    if c == '"' then some (⟨acc.reverse⟩, cs)
    else if c == '\\' then
      match cs with
      | [] => none
      | e :: cs1 =>
        if e == 'u' then
          match getu4 (c :: cs) with
          | none => none
          | some (rr, rest) =>
            if 0xD800 ≤ rr ∧ rr < 0xE000 then
              match getu4 rest with
              | some (rr1, rest1) =>
                if rr < 0xDC00 ∧ 0xDC00 ≤ rr1 ∧ rr1 < 0xE000 then
                  parseString fuel rest1
                    (Char.ofNat ((rr - 0xD800) * 0x400 + (rr1 - 0xDC00) + 0x10000) :: acc)
                else parseString fuel rest (Char.ofNat 0xFFFD :: acc)
              | none => parseString fuel rest (Char.ofNat 0xFFFD :: acc)
            else parseString fuel rest (Char.ofNat rr :: acc)
        else
          match escapeChar e with
          | some x => parseString fuel cs1 (x :: acc)
          | none => none
    else if c.toNat < 0x20 then none
    else parseString fuel cs (c :: acc)

/-- Splits off the leading decimal digits. -/
def spanDigits : List Char → List Char × List Char
  | [] => ([], [])
  | c :: cs =>
    if c.isDigit then ((spanDigits cs).1.cons c, (spanDigits cs).2) else ([], c :: cs)

/-- A number literal of the JSON grammar at the head of the text: the literal and the
rest. -/
def parseNumber (cs : List Char) : Option (List Char × List Char) :=
  let (sign, cs1) := match cs with
    | '-' :: r => (['-'], r)
    | _ => ([], cs)
  let intPart : Option (List Char × List Char) := match cs1 with
    | '0' :: r => some (['0'], r)
    | _ =>
      let (ds, r) := spanDigits cs1
      if ds.isEmpty then none else some (ds, r)
  match intPart with
  | none => none
  | some (ds, cs2) =>
    let frac : Option (List Char × List Char) := match cs2 with
      | '.' :: r =>
        let (fs, r1) := spanDigits r
        if fs.isEmpty then none else some ('.' :: fs, r1)
      | _ => some ([], cs2)
    match frac with
    | none => none
    | some (fs, cs3) =>
      let exp : Option (List Char × List Char) := match cs3 with
        | e :: r =>
          if e == 'e' || e == 'E' then
            let (sg, r1) := match r with
              | '+' :: r2 => (['+'], r2)
              | '-' :: r2 => (['-'], r2)
              | _ => ([], r)
            let (es, r3) := spanDigits r1
            if es.isEmpty then none else some (e :: sg ++ es, r3)
          else some ([], cs3)
        | [] => some ([], cs3)
      match exp with
      | none => none
      | some (es, cs4) => some (sign ++ ds ++ fs ++ es, cs4)

/-- The number written by decimal digits. -/
def digitsValue (ds : List Char) : Nat :=
  ds.foldl (fun acc c => acc * 10 + (c.toNat - '0'.toNat)) 0

/-- The least magnitude that `strconv.ParseFloat` rounds beyond the largest `float64`:
half way between the largest `float64` and 2 to the power 1024. -/
def float64Overflow : Nat := (2 ^ 54 - 1) * 2 ^ 970

/-- Whether a number literal of the JSON grammar converts to a `float64`: whether its
magnitude, the digits `m` times ten to the power `k`, is below `float64Overflow`. A
literal that is too small converts to zero, which is no error. -/
def inFloat64Range (lit : List Char) : Bool :=
  let unsigned : List Char := match lit with
    | '-' :: r => r
    | r => r
  let intDigits := (spanDigits unsigned).1
  let afterInt := (spanDigits unsigned).2
  let fracDigits : List Char := match afterInt with
    | '.' :: r => (spanDigits r).1
    | _ => []
  let afterFrac : List Char := match afterInt with
    | '.' :: r => (spanDigits r).2
    | r => r
  let exponent : Int := match afterFrac with
    | _ :: '-' :: r => -(digitsValue r : Int)
    | _ :: '+' :: r => (digitsValue r : Int)
    | _ :: r => (digitsValue r : Int)
    | [] => 0
  let m : Nat := digitsValue (intDigits ++ fracDigits)
  let k : Int := exponent - (fracDigits.length : Int)
  if m = 0 then true
  else if 0 ≤ k then
    if 400 < k then false else decide (m * 10 ^ k.toNat < float64Overflow)
  else if ((intDigits ++ fracDigits).length : Int) ≤ -k then true
  else decide (m < float64Overflow * 10 ^ (-k).toNat)

/-- Sets a key of a Go map: a later value of the same key replaces the earlier one. -/
def mapSet (kvs : List (String × GoValue)) (k : String) (v : GoValue) :
    List (String × GoValue) :=
  if kvs.any (fun kv => kv.1 == k) then
    kvs.map (fun kv => if kv.1 == k then (k, v) else kv)
  else kvs ++ [(k, v)]

/-- The elements of an array after its first one: each a comma and a value, up to the
closing bracket. -/
def parseElements (value : List Char → Option (GoValue × List Char)) :
    Nat → List Char → List GoValue → Option (GoValue × List Char)
  | 0, _, _ => none
  | fuel + 1, cs, acc =>
    match skipSpace cs with
    | ']' :: rest => some (.slice acc, rest)
    | ',' :: rest =>
      match value rest with
      | some (v, rest1) => parseElements value fuel rest1 (acc ++ [v])
      | none => none
    | _ => none

/-- One member of an object: a string key, a colon and a value. -/
def parseMember (value : List Char → Option (GoValue × List Char)) (cs : List Char) :
    Option ((String × GoValue) × List Char) :=
  match skipSpace cs with
  | '"' :: rest =>
    match parseString (rest.length + 1) rest [] with
    | some (k, rest1) =>
      match skipSpace rest1 with
      | ':' :: rest2 =>
        match value rest2 with
        | some (v, rest3) => some ((k, v), rest3)
        | none => none
      | _ => none
    | none => none
  | _ => none

/-- The members of an object after its first one, up to the closing brace. -/
def parseMembers (value : List Char → Option (GoValue × List Char)) :
    Nat → List Char → List (String × GoValue) → Option (GoValue × List Char)
  | 0, _, _ => none
  | fuel + 1, cs, acc =>
    match skipSpace cs with
    | '}' :: rest => some (.map acc, rest)
    | ',' :: rest =>
      match parseMember value rest with
      | some ((k, v), rest1) => parseMembers value fuel rest1 (mapSet acc k v)
      | none => none
    | _ => none

/-- One JSON value at the head of the text, after white space. The first argument bounds
the nesting of arrays and objects. A number beyond the range of `float64` is an error. -/
def parseValue : Nat → List Char → Option (GoValue × List Char)
  | 0, _ => none
  | depth + 1, cs =>
    match skipSpace cs with
    | [] => none
    | '{' :: rest =>
      if depth = 0 then none
      else
        match skipSpace rest with
        | '}' :: rest1 => some (.map [], rest1)
        | _ =>
          match parseMember (parseValue depth) rest with
          | some ((k, v), rest1) =>
            parseMembers (parseValue depth) (rest1.length + 1) rest1 [(k, v)]
          | none => none
    | '[' :: rest =>
      if depth = 0 then none
      else
        match skipSpace rest with
        | ']' :: rest1 => some (.slice [], rest1)
        | _ =>
          match parseValue depth rest with
          | some (v, rest1) => parseElements (parseValue depth) (rest1.length + 1) rest1 [v]
          | none => none
    | '"' :: rest =>
      match parseString (rest.length + 1) rest [] with
      | some (s, rest1) => some (.string s, rest1)
      | none => none
    | 't' :: 'r' :: 'u' :: 'e' :: rest => some (.bool true, rest)
    | 'f' :: 'a' :: 'l' :: 's' :: 'e' :: rest => some (.bool false, rest)
    | 'n' :: 'u' :: 'l' :: 'l' :: rest => some (.nil, rest)
    | c :: rest =>
      match parseNumber (c :: rest) with
      | some (lit, rest1) => if inFloat64Range lit then some (.float64 ⟨lit⟩, rest1) else none
      | none => none

/-- The limit of `encoding/json` on the nesting of arrays and objects. -/
def maxNestingDepth : Nat := 10000

/-- A model of Go `json.Unmarshal([]byte(text), &v)` for `v` an `interface{}`: the decoded
value, or `none` where Go returns an error. The text must be one JSON value with
nothing but white space around it. A number stays its literal, and a literal beyond the
range of `float64` is an error, as in Go. The theorems on `CallMCPServer` hold for every
decoder; this one serves their examples. -/
def Unmarshal (text : String) : Option GoValue :=
  match parseValue (maxNestingDepth + 1) text.data with
  | some (v, rest) => if (skipSpace rest).isEmpty then some v else none
  | none => none

end json

/-! ## Fixtures of the examples -/

/-- A transport that accepts the handshake and answers every tool call with the given
content. -/
def replyWith (content : List Content) : Transport :=
  { initErr := none
    callTool := fun _ _ => .ok (some { Content := content, IsError := false }) }

/-- A session just opened on the default endpoint: the handshake is still to come. -/
def freshClient : MCPClient :=
  { initialized := false, baseURL := "http://localhost:8040/mcp", timeout := 30 }

/-! ## Opening and closing a session -/

/-- The outcome of a Go call that may panic instead of returning. -/
inductive GoResult (α : Type) where
  | ret (value : α)
  | panic (msg : String)
  deriving DecidableEq, Repr

/-- The message of the panic raised by reading a field through a nil pointer. -/
def nilDereference : String :=
  "runtime error: invalid memory address or nil pointer dereference"

/-- The outcome of `NewMCPClient`: the Go results `(client, err)`, the deadline given to
`context.WithTimeout` in seconds, whether `cancel()` was called before returning, and
the messages sent to the server (the function calls neither `Initialize` nor
`CallTool`). -/
structure OpenOutcome where
  client : Option MCPClient
  err : Option String
  timeout : Nat
  cancelled : Bool
  sent : List Message

/-- The function `NewMCPClient` of `mcp_client.go`. `openErr` is the error of
`client.NewStreamableHttpClient(serverURI)`, `none` when the transport is established; the
client it returns has not done the handshake. -/
def NewMCPClient (env : Environ) (serverURI : String) (openErr : Option String) :
    OpenOutcome :=
  let timeout := if Getenv env "MAESTRO_K_TEST_MODE" = "true" then 5 else 30
  match openErr with
  | some errStr =>
    if strings.Contains errStr "connection refused" ||
        strings.Contains errStr "no such host" ||
        strings.Contains errStr "timeout" ||
        strings.Contains errStr "context deadline exceeded" ||
        strings.Contains errStr "network is unreachable" then
      { client := none,
        err := some ("MCP server could not be reached at " ++ serverURI ++
          ". Please ensure the server is running and accessible"),
        timeout := timeout, cancelled := true, sent := [] }
    else
      { client := none, err := some ("failed to create MCP client: " ++ errStr),
        timeout := timeout, cancelled := true, sent := [] }
  | none =>
    { client := some
        { initialized := false, baseURL := serverURI, timeout := timeout,
          cancelled := false, closed := false },
      err := none, timeout := timeout, cancelled := false, sent := [] }

/-- The method `MCPClient.Close` of `mcp_client.go`, called through a pointer: the error
it returns and the session after the call, or its panic. `transportClose` is what
`c.client.Close()` returns, given whether the transport had been closed before. On the
nil pointer the first read, `c.cancel`, panics. On a session both guards pass: `cancel()`
is called, which cancels the context and does nothing on a context already cancelled, and
the result of `c.client.Close()` is returned. -/
def Close (transportClose : Bool → Option String) :
    Option MCPClient → GoResult (Option String × MCPClient)
  | none => .panic nilDereference
  | some c => .ret (transportClose c.closed, { c with cancelled := true, closed := true })

/-- The method `MCPClient.CallMCPServer` called through a pointer: on the nil pointer the
first read, `c.client`, panics. -/
def callThrough (unmarshal : String → Option GoValue) (tr : Transport)
    (c : Option MCPClient) (method : String) (params : GoValue) : GoResult CallOutcome :=
  match c with
  | none => .panic nilDereference
  | some c1 => .ret (CallMCPServer unmarshal tr c1 method params)

/-- A caller that issues several calls in turn on one session, each with the answers the
transport gives at that time: the outcomes, in order. -/
def callsInTurn (unmarshal : String → Option GoValue) (c : MCPClient) :
    List (Transport × String × GoValue) → List CallOutcome
  | [] => []
  | (tr, method, params) :: rest =>
    CallMCPServer unmarshal tr c method params ::
      callsInTurn unmarshal (CallMCPServer unmarshal tr c method params).client rest

/-- Whether a message is the handshake request. -/
def Message.isInit : Message → Bool
  | .init _ => true
  | .callTool _ _ => false

/-- Whether a message is a tool call, the operation message. -/
def Message.isCallTool : Message → Bool
  | .init _ => false
  | .callTool _ _ => true

/-! ## The commands that open a session -/

/-- What a command meets outside the program: the `.env` file, the process environment,
the outcome of establishing the transport, the answers of the transport, what closing the
transport returns, and `json.Unmarshal`. -/
structure World where
  file : DotEnvFile
  env : Environ
  openErr : Option String
  transport : Transport
  transportClose : Option String
  unmarshal : String → Option GoValue

/-- The process environment once `GetMaestroMCPServerURI` has returned an endpoint. -/
def World.envLoaded (w : World) : Environ :=
  match godotenvLoad w.file w.env with
  | .ok env1 => env1
  | .error _ => w.env

/-- The statement `defer client.Close()`: when the function body is over, by a return or
by a panic, `Close` runs on the pointer; its error is dropped, its panic is the
function's. It is the one `Close` of the command, so `transportClose` is what closing the
transport returns that once. -/
def deferClose {α : Type} (transportClose : Option String) (client : Option MCPClient)
    (body : GoResult α) : GoResult α :=
  match Close (fun _ => transportClose) client with
  | .panic msg => .panic msg
  | .ret _ => body

/-- The method `CreateCommand.createAgentsFromYAML` of `create.go`: the error it returns
(`none` for nil), or its panic. `agentStrings` is what `YamlToString(agentsYaml)` returns.
The line `client, _ := common.NewMCPClient(serverURI)` drops the error of the open, so
the test `err != nil` after it reads the nil error of `GetMaestroMCPServerURI` and its
branch is never taken. -/
def createAgentsFromYAML (w : World) (mcpServerURI : String) (agentStrings : List String) :
    GoResult (Option String) :=
  match GetMaestroMCPServerURI w.file w.env mcpServerURI with
  | .error err => .ret (some err)
  | .ok serverURI =>
    let client := (NewMCPClient w.envLoaded serverURI w.openErr).client
    deferClose w.transportClose client
      (match callThrough w.unmarshal w.transport client "create_agents"
          (.map [("agents", .slice (agentStrings.map GoValue.string))]) with
        | .panic msg => .panic msg
        | .ret o =>
          match o.err with
          | some err => .ret (some err)
          | none => .ret none)

/-- The method `DeployCommand.deployToTarget` of `deploy.go`: the error it returns, or its
panic. `agentsFile` and `workflowFile` are the outcomes of the two `ioutil.ReadFile`.
The error of the open is dropped as in `createAgentsFromYAML`. -/
def deployToTarget (w : World) (mcpServerURI : String)
    (agentsFile workflowFile : Except String String) (target env : String) :
    GoResult (Option String) :=
  match GetMaestroMCPServerURI w.file w.env mcpServerURI with
  | .error err => .ret (some err)
  | .ok serverURI =>
    let client := (NewMCPClient w.envLoaded serverURI w.openErr).client
    deferClose w.transportClose client
      (match agentsFile with
        | .error err => .ret (some err)
        | .ok agent_strings =>
          match workflowFile with
          | .error err => .ret (some err)
          | .ok workflow_strings =>
            match callThrough w.unmarshal w.transport client "deploy_workflow"
                (.map [("agents", .string agent_strings), ("workflow", .string workflow_strings),
                  ("target", .string target), ("env", .string env)]) with
            | .panic msg => .panic msg
            | .ret o =>
              match o.err with
              | some err => .ret (some err)
              | none => .ret none)

/-- A world with no `.env` file and an empty environment, in which establishing the
transport fails with the given cause. -/
def worldOpenFails (cause : String) : World :=
  { file := .missing, env := [], openErr := some cause, transport := replyWith [],
    transportClose := none, unmarshal := json.Unmarshal }

/-- A transport that refuses the handshake with the given cause. -/
def handshakeFails (cause : String) : Transport :=
  { initErr := some cause, callTool := fun _ _ => .error cause }

/-- A transport that accepts the handshake and fails every tool call with the given
cause. -/
def callFails (cause : String) : Transport :=
  { initErr := none, callTool := fun _ _ => .error cause }

/-- A transport that accepts the handshake and answers every tool call with the nil
reply. -/
def replyNil : Transport :=
  { initErr := none, callTool := fun _ _ => .ok none }

/-! ## Names of Kubernetes resources (`create_cr.go`) -/

/-- A character class of a regular expression, as the list of its ranges. -/
abbrev CharClass := List (Char × Char)

/-- Whether a character lies in one of the ranges of the class. -/
def CharClass.has (cls : CharClass) (c : Char) : Bool :=
  cls.any (fun r => decide (r.1 ≤ c) && decide (c ≤ r.2))

/-- The ranges listed in the class of `[^a-zA-Z0-9]`; the class itself is their
complement. -/
def alnumRanges : CharClass := [('a', 'z'), ('A', 'Z'), ('0', '9')]

/-- The class of the regular expression `[.-0-9]$` as Go's `regexp` reads it: the range
from "." to "0" (the characters ".", "/" and "0"), then the single characters "-" and
"9". -/
def endClass : CharClass := [('.', '0'), ('-', '-'), ('9', '9')]

/-- The call `regexp.MustCompile("[^a-zA-Z0-9]").ReplaceAllString(name, repl)`: every
character outside the listed ranges is replaced by `repl`. -/
def replaceNonAlnum (name repl : String) : String :=
  ⟨name.data.flatMap (fun c => if alnumRanges.has c then [c] else repl.data)⟩

/-- The call `regexp.MustCompile("[.-0-9]$").MatchString(s)`: the text is not empty and
its last character is in the class. -/
def matchesEndClass (s : String) : Bool :=
  match s.data.getLast? with
  | some c => endClass.has c
  | none => false

namespace strings

/-- Go `strings.ToLower(s)` on ASCII text, the only text the code passes to it: the
letters "A" to "Z" become "a" to "z". -/
def ToLower (s : String) : String := ⟨s.data.map Char.toLower⟩

/-- The scan of `strings.ReplaceAll` for a non-empty `old`: occurrences are replaced from
left to right and do not overlap. -/
def replaceFrom (old new : List Char) : Nat → List Char → List Char
  | 0, s => s
  | _ + 1, [] => []
  | fuel + 1, c :: cs =>
    if old.isPrefixOf (c :: cs) then new ++ replaceFrom old new fuel ((c :: cs).drop old.length)
    else c :: replaceFrom old new fuel cs

/-- Go `strings.ReplaceAll(s, old, new)`; for an empty `old`, `new` is inserted before
every character and at the end. -/
def ReplaceAll (s old new : String) : String :=
  if old.data.isEmpty then ⟨new.data ++ s.data.flatMap (fun c => c :: new.data)⟩
  else ⟨replaceFrom old.data new.data s.data.length s.data⟩

end strings

/-- The function `sanitizeName` of `create_cr.go`. -/
def sanitizeName (name : String) : String :=
  let newName := replaceNonAlnum name "-"
  let newName := strings.ToLower newName
  let newName := strings.ReplaceAll newName " " "-"
  if matchesEndClass newName then newName ++ "e" else newName

/-- The name once every non-alphanumeric character is replaced by "-" and the letters are
lower-cased: the text `m` of the description of `sanitizeName`. -/
def sanitizedBody (name : String) : String :=
  strings.ToLower (replaceNonAlnum name "-")

/-- Whether a character is a lowercase ASCII letter, a digit or a hyphen. -/
def isNameChar (c : Char) : Bool :=
  (decide ('a' ≤ c) && decide (c ≤ 'z')) || (decide ('0' ≤ c) && decide (c ≤ '9')) || c == '-'

/-! ## YAML documents (`yaml.go`) -/

/-- The type `YAMLDocument` of `yaml.go`, a `map[string]interface{}`, as the list of its
entries. The nil map reads like the empty one; where it matters that a map is nil, it
is an `Option YAMLDocument`. -/
abbrev YAMLDocument := List (String × GoValue)

/-- The outcome of one `decoder.Decode(&doc)` on a `doc` declared just before: an error
(the end of the stream, a syntax error, a document that is not a mapping), or no error
and the decoded `doc`, which for a null (empty) document is still the nil map. -/
inductive DecodeOutcome where
  | failure (err : String)
  | document (doc : Option YAMLDocument)

/-- What `ParseYAML` meets at a path: the error of `os.ReadFile`, if any, the outcomes of
the successive `Decode` calls on the content (after the last one listed, the stream is
at its end and `Decode` fails), and the value of `filepath.Abs`. -/
structure YAMLFile where
  readErr : Option String
  decodes : List DecodeOutcome
  absPath : String

/-- The message of the panic raised by an assignment into a nil map. -/
def assignNilMap : String := "assignment to entry in nil map"

/-- The loop of `ParseYAML`: decode, stop at the first error, else set "source_file" in
the document and append it. -/
def decodeLoop (absPath : String) :
    List DecodeOutcome → List YAMLDocument → GoResult (List YAMLDocument)
  | [], docs => .ret docs
  | .failure _ :: _, docs => .ret docs
  | .document none :: _, _ => .panic assignNilMap
  | .document (some doc) :: rest, docs =>
    decodeLoop absPath rest (docs ++ [json.mapSet doc "source_file" (.string absPath)])

/-- The function `ParseYAML` of `yaml.go`: the Go results `(docs, nil)` and `(nil, err)`,
or a panic. -/
def ParseYAML (file : YAMLFile) : GoResult (Except String (List YAMLDocument)) :=
  match file.readErr with
  | some err => .ret (.error ("could not read YAML file: " ++ err))
  | none =>
    match decodeLoop file.absPath file.decodes [] with
    | .panic msg => .panic msg
    | .ret docs =>
      if docs.isEmpty then .ret (.error "no valid YAML documents found in file")
      else .ret (.ok docs)

/-- The function `YamlToString` of `yaml.go`; `marshal` is `json.Marshal` on a document,
`none` when it fails, and a document that fails is skipped. -/
def YamlToString (marshal : YAMLDocument → Option String) (yamls : List YAMLDocument) :
    List String :=
  yamls.filterMap marshal

/-- The index expression `m[key]` on a Go map: the nil value when the key is absent. -/
def mapIndex (m : List (String × GoValue)) (key : String) : GoValue :=
  (m.lookup key).getD .nil

/-- The checked assertion `v.(map[string]interface{})`. -/
def GoValue.asStringMap : GoValue → Option (List (String × GoValue))
  | .map kvs => some kvs
  | _ => none

/-- The checked assertion `v.(common.YAMLDocument)`. -/
def GoValue.asDocument : GoValue → Option YAMLDocument
  | .doc kvs => some kvs
  | _ => none

/-- The checked assertion `v.(string)`. -/
def GoValue.asString : GoValue → Option String
  | .string s => some s
  | _ => none

/-- The name of the dynamic type of a value, as a failed assertion prints it. -/
def GoValue.typeName : GoValue → String
  | .nil => "nil"
  | .bool _ => "bool"
  | .float64 _ => "float64"
  | .string _ => "string"
  | .slice _ => "[]interface \x7b\x7d"
  | .map _ => "map[string]interface \x7b\x7d"
  | .int _ => "int"
  | .doc _ => "common.YAMLDocument"

/-- The message of the panic of an unchecked assertion `v.(T)` that fails. -/
def conversionPanic (dynamicType target : String) : String :=
  "interface conversion: interface \x7b\x7d is " ++ dynamicType ++ ", not " ++ target

/-- The message of the panic of `xs[i]` out of range. -/
def indexPanic (i length : Nat) : String :=
  "runtime error: index out of range [" ++ toString i ++ "] with length " ++
    toString length

/-- The index expression `xs[i]` on a slice. -/
def sliceIndex {α : Type} (xs : List α) (i : Nat) : GoResult α :=
  match xs.get? i with
  | some x => .ret x
  | none => .panic (indexPanic i xs.length)

/-! ## The run command (`run.go`) -/

/-- What a command meets on the local machine: what `ParseYAML` meets at each path,
`common.FileExists`, `ioutil.ReadFile`, the path
`filepath.Join(filepath.Dir(p), "agents.yaml")` for a path `p`, `json.Marshal` on a
document (`none` when it fails), and the line the user types at the prompt. -/
structure Local where
  parse : String → YAMLFile
  fileExists : String → Bool
  readFile : String → Except String String
  agentsBeside : String → String
  marshal : YAMLDocument → Option String
  userPrompt : String

/-- The fields of `RunCommand` that `Run` reads. -/
structure RunCommand where
  agentsFile : String
  workflowFile : String
  prompt : Bool
  mcpServerURI : String

/-- The value that `runWorkflow` stores under "result": an error, or the pointer that
`CallMCPServer` returned. -/
inductive RunValue where
  | failure (err : String)
  | response (r : Option MCPResponse)

/-- The arguments that `Run` passes to `logWorkflowRun`, the identifier and the times
apart. -/
structure LogEntry where
  workflowName : String
  prompt : String
  output : String
  modelsUsed : List String
  status : String
  deriving DecidableEq, Repr

/-- The method `RunCommand.runWorkflow` of `run.go`: the Go results `(map, err)`, the map
being given by its "result" entry, or a panic. The error of the open is dropped as in
`createAgentsFromYAML`. -/
def runWorkflow (w : World) (loc : Local) (mcpServerURI : String) (workflow : YAMLDocument)
    (agents : List YAMLDocument) : GoResult (RunValue × Option String) :=
  match GetMaestroMCPServerURI w.file w.env mcpServerURI with
  | .error err => .ret (.failure ("failed to get MCP server URI: " ++ err), none)
  | .ok serverURI =>
    let client := (NewMCPClient w.envLoaded serverURI w.openErr).client
    deferClose w.transportClose client
      (let agent_strings := YamlToString loc.marshal agents
       let workflow_strings := YamlToString loc.marshal [workflow]
       match sliceIndex workflow_strings 0 with
       | .panic msg => .panic msg
       | .ret workflow0 =>
         match callThrough w.unmarshal w.transport client "run_workflow"
             (.map [("agents", .slice (agent_strings.map GoValue.string)),
               ("workflow", .string workflow0)]) with
         | .panic msg => .panic msg
         | .ret o =>
           match o.err with
           | some err => .ret (.failure ("failed to query vector database: " ++ err), none)
           | none => .ret (.response o.response, none))

/-- The prompt step of `Run`: the user's line is stored under spec, template, prompt of
the first workflow document, when spec and template are maps. -/
def setTemplatePrompt (doc : YAMLDocument) (userPrompt : String) : YAMLDocument :=
  match (mapIndex doc "spec").asStringMap with
  | none => doc
  | some workflow =>
    match (mapIndex workflow "template").asStringMap with
    | none => doc
    | some template =>
      json.mapSet doc "spec"
        (.map (json.mapSet workflow "template"
          (.map (json.mapSet template "prompt" (.string userPrompt)))))

/-- The workflow name that `Run` extracts: metadata, name. -/
def extractWorkflowName (doc : YAMLDocument) : String :=
  match (mapIndex doc "metadata").asStringMap with
  | none => ""
  | some metadata => ((mapIndex metadata "name").asString).getD ""

/-- The prompt that `Run` extracts: spec, template, prompt. -/
def extractPrompt (doc : YAMLDocument) : String :=
  match (mapIndex doc "spec").asStringMap with
  | none => ""
  | some spec =>
    match (mapIndex spec "template").asStringMap with
    | none => ""
    | some template => ((mapIndex template "prompt").asString).getD ""

/-- What one agent adds to the models used: its model, or "code:" and its name. -/
def agentModel (agent : YAMLDocument) : List String :=
  match (mapIndex agent "spec").asStringMap with
  | none => []
  | some spec =>
    let byName : List String :=
      match (mapIndex agent "metadata").asStringMap with
      | none => []
      | some metadata =>
        match (mapIndex metadata "name").asString with
        | some name => ["code:" ++ name]
        | none => []
    match (mapIndex spec "model").asString with
    | some model => if model ≠ "" then [model] else byName
    | none => byName

/-- The last part of `Run`, from "Extract output from the result": the two unchecked
assertions, then the log entry with status "success" and the nil error. -/
def finishRun (workflowName prompt : String) (modelsUsed : List String) :
    RunValue → GoResult (Option String) × Option LogEntry
  | .failure _ => (.panic (conversionPanic "*fmt.wrapError" "*common.MCPResponse"), none)
  | .response none => (.panic nilDereference, none)
  | .response (some output) =>
    let logged (response : String) : GoResult (Option String) × Option LogEntry :=
      (.ret none,
        some
          { workflowName := workflowName, prompt := prompt, output := response,
            modelsUsed := modelsUsed, status := "success" })
    match output.Result with
    | .nil => logged ""
    | .map kvs =>
      match mapIndex kvs "final_prompt" with
      | .string response => logged response
      | v => (.panic (conversionPanic v.typeName "string"), none)
    | v => (.panic (conversionPanic v.typeName "map[string]interface \x7b\x7d"), none)

/-- The agents step of `Run`: the agents file given, else the file "agents.yaml" beside
the workflow file if there is one, else no agents. -/
def RunCommand.parseAgents (c : RunCommand) (loc : Local) :
    GoResult (Except String (List YAMLDocument)) :=
  if c.agentsFile ≠ "" ∧ c.agentsFile ≠ "None" then ParseYAML (loc.parse c.agentsFile)
  else if loc.fileExists (loc.agentsBeside c.workflowFile) then
    ParseYAML (loc.parse (loc.agentsBeside c.workflowFile))
  else .ret (.ok [])

/-- The method `RunCommand.Run` of `run.go`: the error it returns (`none` for nil) or its
panic, and the arguments of its call of `logWorkflowRun`, if it makes one. The agent
labels, which `Run` computes and does not use, are left out. -/
def RunCommand.Run (c : RunCommand) (w : World) (loc : Local) :
    GoResult (Option String) × Option LogEntry :=
  match ParseYAML (loc.parse c.workflowFile) with
  | .panic msg => (.panic msg, none)
  | .ret (.error err) => (.ret (some err), none)
  | .ret (.ok workflowYaml) =>
    match c.parseAgents loc with
    | .panic msg => (.panic msg, none)
    | .ret (.error err) => (.ret (some err), none)
    | .ret (.ok agentsYaml) =>
      match sliceIndex workflowYaml 0 with
      | .panic msg => (.panic msg, none)
      | .ret first =>
        let workflow := if c.prompt then setTemplatePrompt first loc.userPrompt else first
        match runWorkflow w loc c.mcpServerURI workflow agentsYaml with
        | .panic msg => (.panic msg, none)
        | .ret (_, some err) =>
          (.ret (some err),
            some
              { workflowName := "UNKNOWN", prompt := "", output := "",
                modelsUsed := [], status := "error" })
        | .ret (result, none) =>
          finishRun (extractWorkflowName workflow) (extractPrompt workflow)
            (agentsYaml.flatMap agentModel) result

/-! ## The classifier without the sentinel "ValueError:" -/

/-- The sentinel test reduced to the three texts "Error:", "Exception:" and
"Error calling tool". -/
def hasThreeSentinels (contentText : String) : Bool :=
  strings.Contains contentText "Error:" ||
  strings.Contains contentText "Exception:" ||
  strings.Contains contentText "Error calling tool"

/-- The classifier `convertResponse` with the sentinel test reduced to the three
texts: the one that the code is compared with. -/
def convertResponseThree (unmarshal : String → Option GoValue)
    (response : Option CallToolResult) : MCPResponse :=
  let result : MCPResponse := { JSONRPC := "2.0", ID := 1, Result := .nil, Error := none }
  match response with
  | none => result
  | some r =>
    match r.Content with
    | [] => result
    | first :: _ =>
      match AsTextContent first with
      | none => result
      | some contentText =>
        if hasThreeSentinels contentText then
          { result with Error := some { Code := -1, Message := contentText } }
        else
          match unmarshal contentText with
          | some jsonResult => { result with Result := jsonResult }
          | none => { result with Result := .string contentText }

/-! ## The serve commands (`serve.go`) -/

/-- The fields of `WorkflowServeCommand`. -/
structure WorkflowServeCommand where
  agentsFile : String
  workflowFile : String
  host : String
  port : Int
  mcpServerURI : String
  deriving DecidableEq, Repr

/-- The fields of `AgentServeCommand`. -/
structure AgentServeCommand where
  agentsFile : String
  agentName : String
  host : String
  port : Int
  mcpServerURI : String
  deriving DecidableEq, Repr

/-- The common end of the commands that call one tool: the error of the call, if any, is
returned; otherwise the response is printed and nil is returned. -/
def returnCallError : GoResult CallOutcome → GoResult (Option String)
  | .panic msg => .panic msg
  | .ret o =>
    match o.err with
    | some err => .ret (some err)
    | none => .ret none

/-- The method `WorkflowServeCommand.serveWorkflow` of `serve.go`: the error it returns, or
its panic. The error of the open is dropped as in `createAgentsFromYAML`. -/
def WorkflowServeCommand.serveWorkflow (c : WorkflowServeCommand) (w : World) (loc : Local) :
    GoResult (Option String) :=
  match GetMaestroMCPServerURI w.file w.env c.mcpServerURI with
  | .error err => .ret (some err)
  | .ok serverURI =>
    let client := (NewMCPClient w.envLoaded serverURI w.openErr).client
    deferClose w.transportClose client
      (match loc.readFile c.agentsFile with
        | .error err => .ret (some err)
        | .ok agent_strings =>
          match loc.readFile c.workflowFile with
          | .error err => .ret (some err)
          | .ok workflow_strings =>
            returnCallError (callThrough w.unmarshal w.transport client "serve_workflow"
              (.map [("agents", .string agent_strings), ("workflow", .string workflow_strings),
                ("host", .string c.host), ("port", .int c.port)])))

/-- The method `WorkflowServeCommand.Run` of `serve.go`. -/
def WorkflowServeCommand.Run (c : WorkflowServeCommand) (w : World) (loc : Local) :
    GoResult (Option String) :=
  c.serveWorkflow w loc

/-- The method `AgentServeCommand.serveFastAPIAgent` of `serve.go`. -/
def AgentServeCommand.serveFastAPIAgent (c : AgentServeCommand) (w : World) (loc : Local) :
    GoResult (Option String) :=
  match GetMaestroMCPServerURI w.file w.env c.mcpServerURI with
  | .error err => .ret (some err)
  | .ok serverURI =>
    let client := (NewMCPClient w.envLoaded serverURI w.openErr).client
    deferClose w.transportClose client
      (match loc.readFile c.agentsFile with
        | .error err => .ret (some err)
        | .ok agent_strings =>
          returnCallError (callThrough w.unmarshal w.transport client "serve_agent"
            (.map [("agent", .string agent_strings), ("agent_name", .string c.agentName),
              ("host", .string c.host), ("port", .int c.port)])))

/-- Whether the name under metadata of an agent document is the given one, where
metadata is read by the assertion to `common.YAMLDocument`. -/
def agentNamed (agentName : String) (agent : YAMLDocument) : Bool :=
  match (mapIndex agent "metadata").asDocument with
  | none => false
  | some metadata =>
    match (mapIndex metadata "name").asString with
    | some name => name == agentName
    | none => false

/-- The agent document that `serveContainerAgent` serves: the last one with the given
name (the nil map if there is none), or the first document when no name is given. -/
def selectAgent (agentName : String) (agentsYaml : List YAMLDocument) :
    GoResult YAMLDocument :=
  if agentName ≠ "" then
    .ret (((agentsYaml.filter (agentNamed agentName)).getLast?).getD [])
  else sliceIndex agentsYaml 0

/-- The method `AgentServeCommand.serveContainerAgent` of `serve.go`. -/
def AgentServeCommand.serveContainerAgent (c : AgentServeCommand) (w : World) (loc : Local) :
    GoResult (Option String) :=
  match GetMaestroMCPServerURI w.file w.env c.mcpServerURI with
  | .error err => .ret (some err)
  | .ok serverURI =>
    let client := (NewMCPClient w.envLoaded serverURI w.openErr).client
    deferClose w.transportClose client
      (match ParseYAML (loc.parse c.agentsFile) with
        | .panic msg => .panic msg
        | .ret (.error err) => .ret (some err)
        | .ret (.ok agentsYaml) =>
          match selectAgent c.agentName agentsYaml with
          | .panic msg => .panic msg
          | .ret agentYaml =>
            let app_name : String :=
              match (mapIndex agentYaml "metadata").asDocument with
              | none => ""
              | some metadata => ((mapIndex metadata "name").asString).getD ""
            let image_url : String :=
              match (mapIndex agentYaml "spec").asDocument with
              | none => ""
              | some spec => ((mapIndex spec "image").asString).getD ""
            returnCallError (callThrough w.unmarshal w.transport client
              "serve_container_agent"
              (.map [("image_url", .string image_url), ("app_name", .string app_name)])))

/-- Go `strconv.Atoi(s)`: an optional sign and decimal digits, within the range of a
64-bit `int`; `none` where Go returns an error. -/
def Atoi (s : String) : Option Int :=
  let signed : Bool × List Char :=
    match s.data with
    | '-' :: r => (true, r)
    | '+' :: r => (false, r)
    | r => (false, r)
  if signed.2.isEmpty || !signed.2.all Char.isDigit then none
  else
    let n : Nat := signed.2.foldl (fun acc c => acc * 10 + (c.toNat - '0'.toNat)) 0
    let v : Int := if signed.1 then -(n : Int) else (n : Int)
    if -(2 ^ 63 : Int) ≤ v ∧ v < (2 ^ 63 : Int) then some v else none

/-- The validator `cobra.RangeArgs(min, max)`: its error, `none` when the number of
positional arguments is accepted. -/
def RangeArgs (min max : Nat) (args : List String) : Option String :=
  if args.length < min ∨ args.length > max then
    some ("accepts between " ++ toString min ++ " and " ++ toString max ++
      " arg(s), received " ++ toString args.length)
  else none

/-- The `RunE` of the command built by `NewWorkflowServeCommand`, on the positional
arguments and the values of the flags "host" and "port". -/
def workflowServeRunE (w : World) (loc : Local) (hostFlag portFlag mcpServerURI : String)
    (args : List String) : GoResult (Option String) :=
  match sliceIndex args 0 with
  | .panic msg => .panic msg
  | .ret agentsFile =>
    match sliceIndex args 1 with
    | .panic msg => .panic msg
    | .ret workflowFile =>
      let port : Option Int := if portFlag = "" then some 8001 else Atoi portFlag
      match port with
      | none => .ret (some ("invalid port number: " ++ portFlag))
      | some p =>
        WorkflowServeCommand.Run
          { agentsFile := agentsFile, workflowFile := workflowFile, host := hostFlag,
            port := p, mcpServerURI := mcpServerURI } w loc

/-- How cobra runs a command on its positional arguments: the validator `Args` first, and
`RunE` only when it accepts them. -/
def executeCommand (validate : List String → Option String)
    (runE : List String → GoResult (Option String)) (args : List String) :
    GoResult (Option String) :=
  match validate args with
  | some err => .ret (some err)
  | none => runE args

/-- The world in which the server is reached and answers every tool call with the given
content: no `.env` file, an empty environment. -/
def worldReplies (content : List Content) : World :=
  { file := .missing, env := [], openErr := none, transport := replyWith content,
    transportClose := none, unmarshal := json.Unmarshal }

/-- A local machine with one workflow file, "workflow.yaml", of one document, and no
agents file. The nested mapping of the document has the type of the document,
`common.YAMLDocument`, as the YAML decoder builds it. -/
def localWorkflow : Local :=
  { parse := fun path =>
      if path = "workflow.yaml" then
        { readErr := none,
          decodes := [.document (some [("kind", .string "Workflow"),
            ("metadata", .doc [("name", .string "demo")])])],
          absPath := "/work/workflow.yaml" }
      else { readErr := some "no such file or directory", decodes := [], absPath := path }
    fileExists := fun path => path == "workflow.yaml"
    readFile := fun path =>
      if path = "workflow.yaml" ∨ path = "agents.yaml" then .ok "kind: Workflow"
      else .error "no such file or directory"
    agentsBeside := fun _ => "agents.yaml"
    marshal := fun _ => some "\x7b\x7d"
    userPrompt := "" }

/-- The run command on "workflow.yaml", without agents file or prompt. -/
def runDemo : RunCommand :=
  { agentsFile := "", workflowFile := "workflow.yaml", prompt := false, mcpServerURI := "" }

/-! ## Lemmas on the string functions -/

/-- A text starts with what it was built from on the left. -/
theorem strings.hasPrefix_append (p x : String) : strings.HasPrefix (p ++ x) p = true := by
  simp [strings.HasPrefix, String.data_append]

/-- A text ends with what was appended to it. -/
theorem strings.hasSuffix_append (x p : String) : strings.HasSuffix (x ++ p) p = true := by
  simp [strings.HasSuffix, String.data_append]

/-- Appending to a text keeps its prefixes. -/
theorem strings.hasPrefix_append_right (x p r : String) (h : strings.HasPrefix x p = true) :
    strings.HasPrefix (x ++ r) p = true := by
  simp only [strings.HasPrefix, String.data_append, List.isPrefixOf_iff_prefix] at h ⊢
  exact h.trans (List.prefix_append _ _)

/-- Stripping a trailing slash and appending the sub-path only appends to the text. -/
theorem strings.trimSlash_append_mcp (x : String) :
    strings.TrimSuffix x "/" ++ "/mcp" = x ++ "mcp" ∨
    strings.TrimSuffix x "/" ++ "/mcp" = x ++ "/mcp" := by
  unfold strings.TrimSuffix
  by_cases h : strings.HasSuffix x "/" = true
  · left
    rw [if_pos h]
    simp only [strings.HasSuffix, List.isSuffixOf_iff_suffix] at h
    obtain ⟨t, ht⟩ := h
    apply String.ext
    simp only [String.data_append]
    rw [← ht]
    simp
  · right
    rw [if_neg h]

/-- Every result of `normalizeURL` ends with the sub-path "/mcp". -/
theorem normalizeURL_hasSuffix (x : String) : strings.HasSuffix (normalizeURL x) "/mcp" = true := by
  unfold normalizeURL
  split
  · split
    · rcases strings.trimSlash_append_mcp x with h | h
      · unfold strings.TrimSuffix at h ⊢
        by_cases hs : strings.HasSuffix x "/" = true
        · rw [if_pos hs]; exact strings.hasSuffix_append _ _
        · rw [if_neg hs]; exact strings.hasSuffix_append _ _
      · rw [h]; exact strings.hasSuffix_append _ _
    · rename_i h; simpa using h
  · split
    · exact strings.hasSuffix_append _ _
    · have : "http://" ++ x ++ ":8030/mcp" = ("http://" ++ x ++ ":8030") ++ "/mcp" := by
        apply String.ext; simp [String.data_append]
      rw [this]; exact strings.hasSuffix_append _ _

/-- Every result of `normalizeURL` starts with a scheme. -/
theorem normalizeURL_hasPrefix (x : String) :
    strings.HasPrefix (normalizeURL x) "http://" = true ∨
    strings.HasPrefix (normalizeURL x) "https://" = true := by
  unfold normalizeURL
  split
  · rename_i hp
    have hp2 : strings.HasPrefix x "http://" = true ∨ strings.HasPrefix x "https://" = true := by
      simpa using hp
    split
    · rcases strings.trimSlash_append_mcp x with h | h <;> rw [h] <;>
        rcases hp2 with h1 | h1
      · exact Or.inl (strings.hasPrefix_append_right _ _ _ h1)
      · exact Or.inr (strings.hasPrefix_append_right _ _ _ h1)
      · exact Or.inl (strings.hasPrefix_append_right _ _ _ h1)
      · exact Or.inr (strings.hasPrefix_append_right _ _ _ h1)
    · exact hp2
  · split
    · left
      rw [String.append_assoc]; exact strings.hasPrefix_append _ _
    · left
      rw [String.append_assoc]; exact strings.hasPrefix_append _ _

/-- A text with a scheme and the sub-path is returned by `normalizeURL` as it is. -/
theorem normalizeURL_fixed (y : String)
    (hp : strings.HasPrefix y "http://" = true ∨ strings.HasPrefix y "https://" = true)
    (hs : strings.HasSuffix y "/mcp" = true) : normalizeURL y = y := by
  unfold normalizeURL
  have : (strings.HasPrefix y "http://" || strings.HasPrefix y "https://") = true := by
    simpa using hp
  rw [if_pos this]
  simp [hs]

/-- No result of `normalizeURL` is the empty string. -/
theorem normalizeURL_ne_empty (x : String) : normalizeURL x ≠ "" := by
  intro h
  have := normalizeURL_hasSuffix x
  rw [h] at this
  exact absurd this (by decide)

/-! ## Endpoint resolver: the claims -/

/-- C1: endpoint resolution is idempotent. For every non-empty address `x`,
`normalizeURL (normalizeURL x) = normalizeURL x`; and whenever `GetMaestroMCPServerURI`
returns an endpoint `r`, calling it again with `r` as the explicit address returns `r`
unchanged, whatever the process environment then holds. -/
theorem resolve_idempotent (x : String) (_hx : x ≠ "")
    (file : DotEnvFile) (env env2 : Environ) (cmdServerURI r : String)
    (hr : GetMaestroMCPServerURI file env cmdServerURI = .ok r) :
    normalizeURL (normalizeURL x) = normalizeURL x ∧
    GetMaestroMCPServerURI file env2 r = .ok r := by
  have hfix : ∀ s, normalizeURL (normalizeURL s) = normalizeURL s := fun s =>
    normalizeURL_fixed _ (normalizeURL_hasPrefix s) (normalizeURL_hasSuffix s)
  refine ⟨hfix x, ?_⟩
  cases file with
  | unloadable err => simp [GetMaestroMCPServerURI, godotenvLoad] at hr
  | missing =>
    simp only [GetMaestroMCPServerURI, godotenvLoad, Except.ok.injEq] at hr ⊢
    rw [← hr, if_pos (normalizeURL_ne_empty _)]
    exact hfix _
  | loadable vars =>
    simp only [GetMaestroMCPServerURI, godotenvLoad, Except.ok.injEq] at hr ⊢
    rw [← hr, if_pos (normalizeURL_ne_empty _)]
    exact hfix _

/-- Witness of C1 at `x = "localhost:9000"` and at the default endpoint, resolved with no
`.env` file and an empty environment. -/
theorem resolve_idempotent_witness :
    "localhost:9000" ≠ "" ∧
    GetMaestroMCPServerURI .missing [] "" = .ok "http://localhost:8040/mcp" ∧
    normalizeURL (normalizeURL "localhost:9000") = normalizeURL "localhost:9000" ∧
    GetMaestroMCPServerURI .missing [("MAESTRO_MAESTRO_MCP_SERVER_URI", "example.com")]
      "http://localhost:8040/mcp" = .ok "http://localhost:8040/mcp" :=
  ⟨by decide, rfl,
    resolve_idempotent "localhost:9000" (by decide) .missing [] _ "" _ rfl⟩

/-! ## The call path: the claims on the classification of a reply -/

/-- When the handshake does not fail and the tool call yields a reply, `CallMCPServer`
returns the converted reply and no error. -/
theorem CallMCPServer_of_reply (unmarshal : String → Option GoValue) (tr : Transport)
    (c : MCPClient) (method : String) (params : GoValue) (reply : Option CallToolResult)
    (hinit : c.initialized = true ∨ tr.initErr = none)
    (hreply : tr.callTool method params = .ok reply) :
    (CallMCPServer unmarshal tr c method params).response
        = some (convertResponse unmarshal reply) ∧
    (CallMCPServer unmarshal tr c method params).err = none := by
  unfold CallMCPServer
  cases hc : c.initialized with
  | true => simp [hreply]
  | false =>
    rcases hinit with h | h
    · rw [hc] at h; exact absurd h (by decide)
    · simp [h, hreply]

/-- C2: a reply whose first content item is a text `t` containing one of the sentinels
"ValueError:", "Error:", "Exception:", "Error calling tool" is returned as a response
whose `Error` has code -1 and message exactly `t`, with no `Result` and no Go error,
whatever `json.Unmarshal` would make of `t`. -/
theorem CallMCPServer_sentinel_is_error (unmarshal : String → Option GoValue)
    (tr : Transport) (c : MCPClient) (method : String) (params : GoValue)
    (t : String) (rest : List Content) (isError : Bool)
    (hinit : c.initialized = true ∨ tr.initErr = none)
    (hreply : tr.callTool method params
      = .ok (some { Content := Content.text t :: rest, IsError := isError }))
    (hsentinel : strings.Contains t "ValueError:" = true ∨ strings.Contains t "Error:" = true ∨
      strings.Contains t "Exception:" = true ∨ strings.Contains t "Error calling tool" = true) :
    (CallMCPServer unmarshal tr c method params).err = none ∧
    ∃ resp, (CallMCPServer unmarshal tr c method params).response = some resp ∧
      resp.Error = some { Code := -1, Message := t } ∧ resp.Result = GoValue.nil := by
  obtain ⟨h1, h2⟩ := CallMCPServer_of_reply unmarshal tr c method params _ hinit hreply
  refine ⟨h2, _, h1, ?_⟩
  have hs : hasErrorSentinel t = true := by
    simpa [hasErrorSentinel, or_assoc] using hsentinel
  simp [convertResponse, AsTextContent, hs]

/-- Witness of C2 at `t = "Error: bad input"`, and at a `t` that is valid JSON, on a fresh
session whose transport accepts the handshake. -/
theorem CallMCPServer_sentinel_is_error_witness :
    strings.Contains "Error: bad input" "Error:" = true ∧
    ((CallMCPServer json.Unmarshal (replyWith [.text "Error: bad input"]) freshClient
        "run_workflow" .nil).err = none ∧
      ∃ resp, (CallMCPServer json.Unmarshal (replyWith [.text "Error: bad input"]) freshClient
          "run_workflow" .nil).response = some resp ∧
        resp.Error = some { Code := -1, Message := "Error: bad input" } ∧
        resp.Result = GoValue.nil) ∧
    json.Unmarshal "\x7b\"note\":\"Error: none\"\x7d" = some (.map [("note", .string "Error: none")]) ∧
    ((CallMCPServer json.Unmarshal (replyWith [.text "\x7b\"note\":\"Error: none\"\x7d"]) freshClient
        "run_workflow" .nil).err = none ∧
      ∃ resp, (CallMCPServer json.Unmarshal (replyWith [.text "\x7b\"note\":\"Error: none\"\x7d"])
          freshClient "run_workflow" .nil).response = some resp ∧
        resp.Error = some { Code := -1, Message := "\x7b\"note\":\"Error: none\"\x7d" } ∧
        resp.Result = GoValue.nil) :=
  ⟨by decide,
    CallMCPServer_sentinel_is_error json.Unmarshal (replyWith [.text "Error: bad input"])
      freshClient "run_workflow" .nil "Error: bad input" [] false (Or.inr rfl) rfl
      (Or.inr (Or.inl (by decide))),
    rfl,
    CallMCPServer_sentinel_is_error json.Unmarshal
      (replyWith [.text "\x7b\"note\":\"Error: none\"\x7d"])
      freshClient "run_workflow" .nil "\x7b\"note\":\"Error: none\"\x7d" [] false (Or.inr rfl) rfl
      (Or.inr (Or.inl (by decide)))⟩

/-- C3: a reply text `t` that contains no sentinel and that `json.Unmarshal` decodes to a
value `v` is returned as a success: `Result` is `v`, `Error` is absent, no Go error. -/
theorem CallMCPServer_json_is_result (unmarshal : String → Option GoValue)
    (tr : Transport) (c : MCPClient) (method : String) (params : GoValue)
    (t : String) (rest : List Content) (isError : Bool) (v : GoValue)
    (hinit : c.initialized = true ∨ tr.initErr = none)
    (hreply : tr.callTool method params
      = .ok (some { Content := Content.text t :: rest, IsError := isError }))
    (h1 : strings.Contains t "ValueError:" = false) (h2 : strings.Contains t "Error:" = false)
    (h3 : strings.Contains t "Exception:" = false)
    (h4 : strings.Contains t "Error calling tool" = false)
    (hjson : unmarshal t = some v) :
    (CallMCPServer unmarshal tr c method params).err = none ∧
    ∃ resp, (CallMCPServer unmarshal tr c method params).response = some resp ∧
      resp.Result = v ∧ resp.Error = none := by
  obtain ⟨hr, he⟩ := CallMCPServer_of_reply unmarshal tr c method params _ hinit hreply
  refine ⟨he, _, hr, ?_⟩
  simp [convertResponse, AsTextContent, hasErrorSentinel, h1, h2, h3, h4, hjson]

/-- Witness of C3 at the reply text `{"final_prompt":"ok"}`: the result is the mapping
with `final_prompt` = "ok". -/
theorem CallMCPServer_json_is_result_witness :
    json.Unmarshal "\x7b\"final_prompt\":\"ok\"\x7d"
      = some (.map [("final_prompt", .string "ok")]) ∧
    ((CallMCPServer json.Unmarshal (replyWith [.text "\x7b\"final_prompt\":\"ok\"\x7d"]) freshClient
        "run_workflow" .nil).err = none ∧
      ∃ resp, (CallMCPServer json.Unmarshal (replyWith [.text "\x7b\"final_prompt\":\"ok\"\x7d"])
          freshClient "run_workflow" .nil).response = some resp ∧
        resp.Result = .map [("final_prompt", .string "ok")] ∧ resp.Error = none) :=
  ⟨rfl,
    CallMCPServer_json_is_result json.Unmarshal
      (replyWith [.text "\x7b\"final_prompt\":\"ok\"\x7d"]) freshClient "run_workflow" .nil
      "\x7b\"final_prompt\":\"ok\"\x7d" [] false _ (Or.inr rfl) rfl
      (by decide) (by decide) (by decide) (by decide) rfl⟩

/-- C4: classification never raises. A reply text `t` that contains no sentinel and that
`json.Unmarshal` rejects is returned as a success whose `Result` is the string `t`
unchanged, with `Error` absent and no Go error. -/
theorem CallMCPServer_text_fallback (unmarshal : String → Option GoValue)
    (tr : Transport) (c : MCPClient) (method : String) (params : GoValue)
    (t : String) (rest : List Content) (isError : Bool)
    (hinit : c.initialized = true ∨ tr.initErr = none)
    (hreply : tr.callTool method params
      = .ok (some { Content := Content.text t :: rest, IsError := isError }))
    (h1 : strings.Contains t "ValueError:" = false) (h2 : strings.Contains t "Error:" = false)
    (h3 : strings.Contains t "Exception:" = false)
    (h4 : strings.Contains t "Error calling tool" = false)
    (hjson : unmarshal t = none) :
    (CallMCPServer unmarshal tr c method params).err = none ∧
    ∃ resp, (CallMCPServer unmarshal tr c method params).response = some resp ∧
      resp.Result = GoValue.string t ∧ resp.Error = none := by
  obtain ⟨hr, he⟩ := CallMCPServer_of_reply unmarshal tr c method params _ hinit hreply
  refine ⟨he, _, hr, ?_⟩
  simp [convertResponse, AsTextContent, hasErrorSentinel, h1, h2, h3, h4, hjson]

/-- Witness of C4 at the reply text `plain text result`. -/
theorem CallMCPServer_text_fallback_witness :
    json.Unmarshal "plain text result" = none ∧
    ((CallMCPServer json.Unmarshal (replyWith [.text "plain text result"]) freshClient
        "run_workflow" .nil).err = none ∧
      ∃ resp, (CallMCPServer json.Unmarshal (replyWith [.text "plain text result"])
          freshClient "run_workflow" .nil).response = some resp ∧
        resp.Result = GoValue.string "plain text result" ∧ resp.Error = none) :=
  ⟨rfl,
    CallMCPServer_text_fallback json.Unmarshal (replyWith [.text "plain text result"])
      freshClient "run_workflow" .nil "plain text result" [] false (Or.inr rfl) rfl
      (by decide) (by decide) (by decide) (by decide) rfl⟩

/-- C5, as stated, fails: for a reply with no content, `CallMCPServer` returns without
error a response in which neither `Result` nor `Error` is populated. -/
theorem CallMCPServer_empty_reply_neither :
    (CallMCPServer json.Unmarshal (replyWith []) freshClient "run_workflow" .nil).err = none ∧
    ∃ resp, (CallMCPServer json.Unmarshal (replyWith []) freshClient
        "run_workflow" .nil).response = some resp ∧
      resp.Result = GoValue.nil ∧ resp.Error = none :=
  ⟨rfl, _, rfl, rfl, rfl⟩

/-- C5, amended: in every response that `CallMCPServer` returns without error, `Result`
and `Error` are never both populated; exactly one of them is populated if and only if the
first content item of the reply is a text that contains a sentinel or that
`json.Unmarshal` does not decode to the nil value (JSON `null`); for every other reply (a
nil reply, no content, a first item that is not text, a sentinel-free text decoding to
nil) neither is populated. -/
theorem CallMCPServer_at_most_one (unmarshal : String → Option GoValue)
    (tr : Transport) (c : MCPClient) (method : String) (params : GoValue)
    (reply : Option CallToolResult)
    (hinit : c.initialized = true ∨ tr.initErr = none)
    (hreply : tr.callTool method params = .ok reply) :
    (CallMCPServer unmarshal tr c method params).err = none ∧
    ∃ resp, (CallMCPServer unmarshal tr c method params).response = some resp ∧
      ¬ (resp.Result ≠ GoValue.nil ∧ resp.Error ≠ none) ∧
      ((resp.Result ≠ GoValue.nil ∨ resp.Error ≠ none) ↔
        ∃ t rest isError,
          reply = some { Content := Content.text t :: rest, IsError := isError } ∧
          (hasErrorSentinel t = true ∨ unmarshal t ≠ some GoValue.nil)) := by
  obtain ⟨hr, he⟩ := CallMCPServer_of_reply unmarshal tr c method params _ hinit hreply
  refine ⟨he, _, hr, ?_⟩
  cases reply with
  | none => simp [convertResponse]
  | some r =>
    obtain ⟨content, isErr⟩ := r
    cases content with
    | nil => simp [convertResponse]
    | cons first tail =>
      cases first with
      | other k => simp [convertResponse, AsTextContent]
      | text t =>
        by_cases hs : hasErrorSentinel t = true
        · simp [convertResponse, AsTextContent, hs]
        · cases hu : unmarshal t with
          | none => simp [convertResponse, AsTextContent, hs, hu]
          | some v => simp [convertResponse, AsTextContent, hs, hu]

/-- Witness of the amended C5 at the reply text `plain text result`. -/
theorem CallMCPServer_at_most_one_witness :
    (CallMCPServer json.Unmarshal (replyWith [.text "plain text result"]) freshClient
        "run_workflow" .nil).err = none ∧
    ∃ resp, (CallMCPServer json.Unmarshal (replyWith [.text "plain text result"]) freshClient
        "run_workflow" .nil).response = some resp ∧
      ¬ (resp.Result ≠ GoValue.nil ∧ resp.Error ≠ none) ∧
      ((resp.Result ≠ GoValue.nil ∨ resp.Error ≠ none) ↔
        ∃ t rest isError,
          some ({ Content := [Content.text "plain text result"], IsError := false } :
              CallToolResult)
            = some { Content := Content.text t :: rest, IsError := isError } ∧
          (hasErrorSentinel t = true ∨ json.Unmarshal t ≠ some GoValue.nil)) :=
  CallMCPServer_at_most_one json.Unmarshal (replyWith [.text "plain text result"])
    freshClient "run_workflow" .nil _ (Or.inr rfl) rfl

/-! ## Endpoint resolver: priority and normalisation rules -/

/-- C6, as stated, fails: with a non-empty explicit address and a `.env` file that is
present but does not load, the result is an error, not the normalised explicit address. -/
theorem GetMaestroMCPServerURI_unloadable_explicit :
    "localhost:9000" ≠ "" ∧
    GetMaestroMCPServerURI (.unloadable "unexpected character") [] "localhost:9000"
      = .error "failed to load .env file: unexpected character" ∧
    GetMaestroMCPServerURI (.unloadable "unexpected character") [] "localhost:9000"
      ≠ .ok (normalizeURL "localhost:9000") := by
  refine ⟨by decide, rfl, ?_⟩
  intro h
  cases h

/-- C6, amended: unless the `.env` file is present and fails to load (then the result is
the error "failed to load .env file: ..."), `GetMaestroMCPServerURI` picks its address by
priority: with `e` the explicit address and `v` the value of
`MAESTRO_MAESTRO_MCP_SERVER_URI` once the `.env` file, if any, is loaded, the result is
`normalizeURL e` if `e` is non-empty, else `normalizeURL v` if `v` is non-empty, else
"http://localhost:8040/mcp", the normalised default "localhost:8040". -/
theorem GetMaestroMCPServerURI_priority (file : DotEnvFile) (env : Environ) (e : String) :
    (∀ err, file = .unloadable err →
      GetMaestroMCPServerURI file env e = .error ("failed to load .env file: " ++ err)) ∧
    (∀ env1, godotenvLoad file env = .ok env1 →
      GetMaestroMCPServerURI file env e = .ok
        (if e ≠ "" then normalizeURL e
         else if Getenv env1 "MAESTRO_MAESTRO_MCP_SERVER_URI" ≠ "" then
           normalizeURL (Getenv env1 "MAESTRO_MAESTRO_MCP_SERVER_URI")
         else "http://localhost:8040/mcp") ∧
      normalizeURL "localhost:8040" = "http://localhost:8040/mcp") := by
  constructor
  · intro err h
    subst h
    rfl
  · intro env1 h
    refine ⟨?_, by decide⟩
    unfold GetMaestroMCPServerURI
    rw [h]
    by_cases he : e = ""
    · by_cases hv : Getenv env1 "MAESTRO_MAESTRO_MCP_SERVER_URI" = ""
      · simp only [he, hv, ne_eq, not_true_eq_false, if_false]
        congr 1
      · simp [he, hv]
    · simp [he]

/-- Witness of the amended C6: with no explicit address, the variable unset in the
process and set by the `.env` file, the endpoint comes from the file's value. -/
theorem GetMaestroMCPServerURI_priority_witness :
    godotenvLoad (.loadable [("MAESTRO_MAESTRO_MCP_SERVER_URI", "example.com")]) []
      = .ok [("MAESTRO_MAESTRO_MCP_SERVER_URI", "example.com")] ∧
    GetMaestroMCPServerURI (.loadable [("MAESTRO_MAESTRO_MCP_SERVER_URI", "example.com")]) [] ""
      = .ok "http://example.com:8030/mcp" :=
  ⟨rfl,
    ((GetMaestroMCPServerURI_priority
      (.loadable [("MAESTRO_MAESTRO_MCP_SERVER_URI", "example.com")]) [] "").2 _ rfl).1⟩

/-- C7 fails on the code at "http://host/mcp/": the input starts with "http://" and, less
its trailing "/", ends with "/mcp", yet `normalizeURL` does not return it so stripped: it
tests the suffix before stripping and returns "http://host/mcp/mcp". -/
theorem normalizeURL_mcp_trailing_slash :
    strings.HasPrefix "http://host/mcp/" "http://" = true ∧
    strings.TrimSuffix "http://host/mcp/" "/" = "http://host/mcp" ∧
    strings.HasSuffix (strings.TrimSuffix "http://host/mcp/" "/") "/mcp" = true ∧
    normalizeURL "http://host/mcp/" = "http://host/mcp/mcp" ∧
    normalizeURL "http://host/mcp/" ≠ strings.TrimSuffix "http://host/mcp/" "/" := by
  decide

/-- C8, as stated, fails: "localhost:9000/" has no scheme and contains ":", and the result
is not "http://" ++ input ++ "/mcp", for the trailing "/" is stripped. -/
theorem normalizeURL_hostport_trailing_slash :
    strings.HasPrefix "localhost:9000/" "http://" = false ∧
    strings.HasPrefix "localhost:9000/" "https://" = false ∧
    strings.Contains "localhost:9000/" ":" = true ∧
    normalizeURL "localhost:9000/" = "http://localhost:9000/mcp" ∧
    normalizeURL "localhost:9000/" ≠ "http://" ++ "localhost:9000/" ++ "/mcp" := by
  decide

/-- C8, amended: for every input that does not start with "http://" or "https://" and
contains a ":", `normalizeURL` returns "http://" ++ s ++ "/mcp" with `s` the input less
one trailing "/" (the input itself when it does not end with "/"). -/
theorem normalizeURL_hostport (input : String)
    (h1 : strings.HasPrefix input "http://" = false)
    (h2 : strings.HasPrefix input "https://" = false)
    (h3 : strings.Contains input ":" = true) :
    normalizeURL input = "http://" ++ strings.TrimSuffix input "/" ++ "/mcp" ∧
    (strings.HasSuffix input "/" = false → strings.TrimSuffix input "/" = input) := by
  constructor
  · simp [normalizeURL, h1, h2, h3]
  · intro h
    simp [strings.TrimSuffix, h]

/-- Witness of the amended C8: "localhost:9000" gives "http://localhost:9000/mcp". -/
theorem normalizeURL_hostport_witness :
    strings.HasPrefix "localhost:9000" "http://" = false ∧
    strings.HasPrefix "localhost:9000" "https://" = false ∧
    strings.Contains "localhost:9000" ":" = true ∧
    normalizeURL "localhost:9000" = "http://localhost:9000/mcp" :=
  ⟨by decide, by decide, by decide,
    (normalizeURL_hostport "localhost:9000" (by decide) (by decide) (by decide)).1⟩

/-- C9: for every input that does not start with "http://" or "https://" and contains no
":" (a bare host), `normalizeURL` returns "http://" ++ input ++ ":8030/mcp". -/
theorem normalizeURL_bare_host (input : String)
    (h1 : strings.HasPrefix input "http://" = false)
    (h2 : strings.HasPrefix input "https://" = false)
    (h3 : strings.Contains input ":" = false) :
    normalizeURL input = "http://" ++ input ++ ":8030/mcp" := by
  simp [normalizeURL, h1, h2, h3]

/-- Witness of C9: "example.com" gives "http://example.com:8030/mcp". -/
theorem normalizeURL_bare_host_witness :
    strings.Contains "example.com" ":" = false ∧
    normalizeURL "example.com" = "http://example.com:8030/mcp" :=
  ⟨by decide, normalizeURL_bare_host "example.com" (by decide) (by decide) (by decide)⟩

/-- C10: every input that starts with "http://" or "https://" and already ends with "/mcp"
is a fixed point of `normalizeURL`. -/
theorem normalizeURL_fixed_point (input : String)
    (hp : strings.HasPrefix input "http://" = true ∨ strings.HasPrefix input "https://" = true)
    (hs : strings.HasSuffix input "/mcp" = true) :
    normalizeURL input = input :=
  normalizeURL_fixed input hp hs

/-- Witness of C10: "https://host/api/mcp" is returned unchanged. -/
theorem normalizeURL_fixed_point_witness :
    strings.HasPrefix "https://host/api/mcp" "https://" = true ∧
    strings.HasSuffix "https://host/api/mcp" "/mcp" = true ∧
    normalizeURL "https://host/api/mcp" = "https://host/api/mcp" :=
  ⟨by decide, by decide,
    normalizeURL_fixed_point "https://host/api/mcp" (Or.inr (by decide)) (by decide)⟩

/-! ## Endpoint invariant and failure of the resolver -/

/-- C11: endpoint invariant. For every input string the value returned by `normalizeURL`
starts with "http://" or "https://" and ends with "/mcp", and so does every endpoint that
`GetMaestroMCPServerURI` returns. -/
theorem endpoint_invariant (x : String) :
    ((strings.HasPrefix (normalizeURL x) "http://" = true ∨
        strings.HasPrefix (normalizeURL x) "https://" = true) ∧
      strings.HasSuffix (normalizeURL x) "/mcp" = true) ∧
    ∀ (file : DotEnvFile) (env : Environ) (r : String),
      GetMaestroMCPServerURI file env x = .ok r →
      (strings.HasPrefix r "http://" = true ∨ strings.HasPrefix r "https://" = true) ∧
      strings.HasSuffix r "/mcp" = true := by
  refine ⟨⟨normalizeURL_hasPrefix x, normalizeURL_hasSuffix x⟩, ?_⟩
  intro file env r hr
  unfold GetMaestroMCPServerURI at hr
  cases hload : godotenvLoad file env with
  | error err => rw [hload] at hr; cases hr
  | ok env1 =>
    rw [hload] at hr
    simp only [Except.ok.injEq] at hr
    rw [← hr]
    exact ⟨normalizeURL_hasPrefix _, normalizeURL_hasSuffix _⟩

/-- Witness of C11 at the bare host "example.com", as input of `normalizeURL` and as
explicit address of `GetMaestroMCPServerURI`. -/
theorem endpoint_invariant_witness :
    GetMaestroMCPServerURI .missing [] "example.com" = .ok "http://example.com:8030/mcp" ∧
    (strings.HasPrefix "http://example.com:8030/mcp" "http://" = true ∨
      strings.HasPrefix "http://example.com:8030/mcp" "https://" = true) ∧
    strings.HasSuffix "http://example.com:8030/mcp" "/mcp" = true :=
  ⟨rfl, (endpoint_invariant "example.com").2 .missing [] _ rfl⟩

/-- C12, as stated, fails: with the environment value set and a `.env` file that is
present but does not load, `GetMaestroMCPServerURI` returns an error and no endpoint. -/
theorem GetMaestroMCPServerURI_unloadable_env_value :
    Getenv [("MAESTRO_MAESTRO_MCP_SERVER_URI", "example.com")]
      "MAESTRO_MAESTRO_MCP_SERVER_URI" = "example.com" ∧
    GetMaestroMCPServerURI (.unloadable "open .env: permission denied")
      [("MAESTRO_MAESTRO_MCP_SERVER_URI", "example.com")] ""
      = .error "failed to load .env file: open .env: permission denied" :=
  ⟨rfl, rfl⟩

/-- C12, amended: `GetMaestroMCPServerURI` fails if and only if the `.env` file is present
and does not load, whatever the explicit address and the environment value are; when the
file is absent or loads, it returns an endpoint and no error for every explicit address
and every environment, also when both values are empty, for the default then applies. -/
theorem GetMaestroMCPServerURI_fails_iff (file : DotEnvFile) (env : Environ) (e : String) :
    ((∃ msg, GetMaestroMCPServerURI file env e = .error msg) ↔
      ∃ err, file = DotEnvFile.unloadable err) ∧
    ((∀ err, file ≠ DotEnvFile.unloadable err) →
      ∃ r, GetMaestroMCPServerURI file env e = .ok r) := by
  cases file with
  | missing => simp [GetMaestroMCPServerURI, godotenvLoad]
  | unloadable err => simp [GetMaestroMCPServerURI, godotenvLoad]
  | loadable vars => simp [GetMaestroMCPServerURI, godotenvLoad]

/-- Witness of the amended C12: with a `.env` file that loads, and both the explicit
address and the environment value empty, the default endpoint is returned. -/
theorem GetMaestroMCPServerURI_fails_iff_witness :
    ∃ r, GetMaestroMCPServerURI (.loadable [("MAESTRO_K_TEST_MODE", "true")]) [] ""
      = .ok r :=
  (GetMaestroMCPServerURI_fails_iff (.loadable [("MAESTRO_K_TEST_MODE", "true")]) [] "").2
    (fun _ h => by cases h)

/-! ## Failures of the transport -/

/-- Two texts that start with different characters differ, whatever follows. -/
theorem strings.append_ne_of_head (p q x y : String)
    (h : ∃ a b s t, p.data = a :: s ∧ q.data = b :: t ∧ a ≠ b) : p ++ x ≠ q ++ y := by
  obtain ⟨a, b, s, t, hp, hq, hab⟩ := h
  intro heq
  have hd := congrArg String.data heq
  simp only [String.data_append, hp, hq, List.cons_append, List.cons.injEq] at hd
  exact hab hd.1

/-- The reachability test is the test for the five texts. -/
theorem isUnreachable_iff (c : String) :
    isUnreachable c = true ↔
      (strings.Contains c "connection refused" = true ∨
        strings.Contains c "no such host" = true ∨
        strings.Contains c "timeout" = true ∨
        strings.Contains c "context deadline exceeded" = true ∨
        strings.Contains c "network is unreachable" = true) := by
  simp [isUnreachable, or_assoc]

/-- The error of `NewMCPClient` when establishing the transport fails. -/
theorem NewMCPClient_err (env : Environ) (uri c : String) :
    (NewMCPClient env uri (some c)).client = none ∧
    (NewMCPClient env uri (some c)).err =
      some (if isUnreachable c then unreachableMessage uri
        else "failed to create MCP client: " ++ c) := by
  by_cases h : isUnreachable c = true
  · have h2 := h
    unfold isUnreachable at h2
    simp only [NewMCPClient]
    rw [if_pos h2, if_pos h]
    exact ⟨rfl, rfl⟩
  · have h2 := h
    unfold isUnreachable at h2
    simp only [NewMCPClient]
    rw [if_neg h2, if_neg h]
    exact ⟨rfl, rfl⟩

/-- The errors of the other kinds never read as the error that names the endpoint. -/
theorem wrapped_ne_unreachable (uri c m : String) :
    "failed to create MCP client: " ++ c ≠ unreachableMessage uri ∧
    "failed to initialize MCP client: " ++ c ≠ unreachableMessage uri ∧
    "failed to call MCP tool " ++ m ++ ": " ++ c ≠ unreachableMessage uri := by
  unfold unreachableMessage
  refine ⟨?_, ?_, ?_⟩
  · rw [String.append_assoc]
    exact strings.append_ne_of_head _ _ _ _ ⟨'f', 'M', _, _, rfl, rfl, by decide⟩
  · rw [String.append_assoc]
    exact strings.append_ne_of_head _ _ _ _ ⟨'f', 'M', _, _, rfl, rfl, by decide⟩
  · rw [String.append_assoc, String.append_assoc, String.append_assoc]
    exact strings.append_ne_of_head _ _ _ _ ⟨'f', 'M', _, _, rfl, rfl, by decide⟩

/-- C13: when establishing the transport fails with cause text `c`, `NewMCPClient` returns
no session, and its error is the unreachable error naming the endpoint if and only if `c`
contains one of "connection refused", "no such host", "timeout",
"context deadline exceeded", "network is unreachable"; otherwise it is the transport
error "failed to create MCP client: " followed by `c`. -/
theorem NewMCPClient_failure (env : Environ) (uri c : String) :
    (NewMCPClient env uri (some c)).client = none ∧
    ((NewMCPClient env uri (some c)).err =
        some ("MCP server could not be reached at " ++ uri ++
          ". Please ensure the server is running and accessible") ↔
      (strings.Contains c "connection refused" = true ∨
        strings.Contains c "no such host" = true ∨
        strings.Contains c "timeout" = true ∨
        strings.Contains c "context deadline exceeded" = true ∨
        strings.Contains c "network is unreachable" = true)) ∧
    (¬ (strings.Contains c "connection refused" = true ∨
        strings.Contains c "no such host" = true ∨
        strings.Contains c "timeout" = true ∨
        strings.Contains c "context deadline exceeded" = true ∨
        strings.Contains c "network is unreachable" = true) →
      (NewMCPClient env uri (some c)).err = some ("failed to create MCP client: " ++ c)) := by
  obtain ⟨h1, h2⟩ := NewMCPClient_err env uri c
  rw [← isUnreachable_iff]
  refine ⟨h1, ?_, ?_⟩
  · rw [h2]
    by_cases h : isUnreachable c = true
    · simp [h, unreachableMessage]
    · have hne := (wrapped_ne_unreachable uri c "").1
      simp only [h, Option.some.injEq]
      constructor
      · intro heq; exact absurd heq hne
      · intro hf; exact absurd hf (by simp)
  · intro h
    rw [h2]
    simp [h]

/-- Witness of C13: a refused connection gives the unreachable error, a malformed
address the transport error. -/
theorem NewMCPClient_failure_witness :
    (NewMCPClient [] "http://localhost:8040/mcp"
        (some "dial tcp 127.0.0.1:8040: connect: connection refused")).err =
      some "MCP server could not be reached at http://localhost:8040/mcp. Please ensure the server is running and accessible" ∧
    (NewMCPClient [] "http://localhost:8040/mcp" (some "invalid URL")).err =
      some "failed to create MCP client: invalid URL" :=
  ⟨(NewMCPClient_failure [] "http://localhost:8040/mcp"
      "dial tcp 127.0.0.1:8040: connect: connection refused").2.1.2 (Or.inl (by decide)),
    (NewMCPClient_failure [] "http://localhost:8040/mcp" "invalid URL").2.2 (by decide)⟩

/-- The outcome of `CallMCPServer` when the handshake is refused. -/
theorem CallMCPServer_handshake_refused (unmarshal : String → Option GoValue)
    (tr : Transport) (c : MCPClient) (method : String) (params : GoValue) (e : String)
    (hc : c.initialized = false) (hi : tr.initErr = some e) :
    (CallMCPServer unmarshal tr c method params).err =
      some (if isUnreachable e then unreachableMessage c.baseURL
        else "failed to initialize MCP client: " ++ e) ∧
    (CallMCPServer unmarshal tr c method params).response = none ∧
    (CallMCPServer unmarshal tr c method params).sent = [Message.init "2024-11-05"] ∧
    (CallMCPServer unmarshal tr c method params).client = c := by
  unfold CallMCPServer
  by_cases h : isUnreachable e = true <;> simp [hc, hi, h]

/-- The outcome of `CallMCPServer` when the tool call fails. -/
theorem CallMCPServer_call_failed (unmarshal : String → Option GoValue)
    (tr : Transport) (c : MCPClient) (method : String) (params : GoValue) (e : String)
    (hinit : c.initialized = true ∨ tr.initErr = none)
    (hcall : tr.callTool method params = .error e) :
    (CallMCPServer unmarshal tr c method params).err =
      some (if isUnreachable e then unreachableMessage c.baseURL
        else "failed to call MCP tool " ++ method ++ ": " ++ e) ∧
    (CallMCPServer unmarshal tr c method params).response = none := by
  unfold CallMCPServer
  cases hc : c.initialized with
  | true => by_cases h : isUnreachable e = true <;> simp [hcall, h]
  | false =>
    rcases hinit with h0 | h0
    · rw [hc] at h0; exact absurd h0 (by decide)
    · by_cases h : isUnreachable e = true <;> simp [h0, hcall, h]

/-- C14: the handshake and the invocation classify a failure with the same reachability
heuristic as the open. For every cause text `c`, each of the three sites (`NewMCPClient`,
the `Initialize` failure branch and the `CallTool` failure branch of `CallMCPServer`)
returns the error "MCP server could not be reached at <endpoint>. ..." naming the
endpoint of the session if and only if `c` contains one of the five texts: the three
agree, and produce the same message. -/
theorem reachability_heuristic_agrees (unmarshal : String → Option GoValue)
    (env : Environ) (uri c : String) (s2 s3 : MCPClient) (tr2 tr3 : Transport)
    (method : String) (params : GoValue)
    (hs2 : s2.baseURL = uri) (hfresh : s2.initialized = false) (h2 : tr2.initErr = some c)
    (hs3 : s3.baseURL = uri) (hinit : s3.initialized = true ∨ tr3.initErr = none)
    (h3 : tr3.callTool method params = .error c) :
    ((NewMCPClient env uri (some c)).err =
        some ("MCP server could not be reached at " ++ uri ++
          ". Please ensure the server is running and accessible") ↔
      (strings.Contains c "connection refused" = true ∨
        strings.Contains c "no such host" = true ∨
        strings.Contains c "timeout" = true ∨
        strings.Contains c "context deadline exceeded" = true ∨
        strings.Contains c "network is unreachable" = true)) ∧
    ((CallMCPServer unmarshal tr2 s2 method params).err =
        some ("MCP server could not be reached at " ++ uri ++
          ". Please ensure the server is running and accessible") ↔
      (strings.Contains c "connection refused" = true ∨
        strings.Contains c "no such host" = true ∨
        strings.Contains c "timeout" = true ∨
        strings.Contains c "context deadline exceeded" = true ∨
        strings.Contains c "network is unreachable" = true)) ∧
    ((CallMCPServer unmarshal tr3 s3 method params).err =
        some ("MCP server could not be reached at " ++ uri ++
          ". Please ensure the server is running and accessible") ↔
      (strings.Contains c "connection refused" = true ∨
        strings.Contains c "no such host" = true ∨
        strings.Contains c "timeout" = true ∨
        strings.Contains c "context deadline exceeded" = true ∨
        strings.Contains c "network is unreachable" = true)) := by
  have e1 := (NewMCPClient_err env uri c).2
  have e2 := (CallMCPServer_handshake_refused unmarshal tr2 s2 method params c hfresh h2).1
  have e3 := (CallMCPServer_call_failed unmarshal tr3 s3 method params c hinit h3).1
  obtain ⟨n1, n2, n3⟩ := wrapped_ne_unreachable uri c method
  rw [← isUnreachable_iff, e1, e2, e3, hs2, hs3]
  have hU : "MCP server could not be reached at " ++ uri ++
      ". Please ensure the server is running and accessible" = unreachableMessage uri := rfl
  rw [hU]
  by_cases h : isUnreachable c = true
  · simp [h]
  · simp only [h, Option.some.injEq]
    exact ⟨⟨fun x => absurd x n1, fun x => absurd x (by simp)⟩,
      ⟨fun x => absurd x n2, fun x => absurd x (by simp)⟩,
      ⟨fun x => absurd x n3, fun x => absurd x (by simp)⟩⟩

/-- Witness of C14 at the cause "dial tcp: lookup nohost: no such host": the three sites
return the same error. -/
theorem reachability_heuristic_agrees_witness :
    (NewMCPClient [] "http://localhost:8040/mcp"
        (some "dial tcp: lookup nohost: no such host")).err =
      some "MCP server could not be reached at http://localhost:8040/mcp. Please ensure the server is running and accessible" ∧
    (CallMCPServer json.Unmarshal (handshakeFails "dial tcp: lookup nohost: no such host")
        freshClient "run_workflow" .nil).err =
      some "MCP server could not be reached at http://localhost:8040/mcp. Please ensure the server is running and accessible" ∧
    (CallMCPServer json.Unmarshal (callFails "dial tcp: lookup nohost: no such host")
        freshClient "run_workflow" .nil).err =
      some "MCP server could not be reached at http://localhost:8040/mcp. Please ensure the server is running and accessible" :=
  have h := reachability_heuristic_agrees json.Unmarshal [] "http://localhost:8040/mcp"
    "dial tcp: lookup nohost: no such host" freshClient freshClient
    (handshakeFails "dial tcp: lookup nohost: no such host")
    (callFails "dial tcp: lookup nohost: no such host") "run_workflow" .nil
    rfl rfl rfl rfl (Or.inr rfl) rfl
  ⟨h.1.2 (Or.inr (Or.inl (by decide))), h.2.1.2 (Or.inr (Or.inl (by decide))),
    h.2.2.2 (Or.inr (Or.inl (by decide)))⟩

/-! ## The handshake: once, and before the first operation -/

/-- On a session that has done the handshake, a call sends the operation message alone
and leaves the session as it is. -/
theorem CallMCPServer_initialized (unmarshal : String → Option GoValue) (tr : Transport)
    (c : MCPClient) (method : String) (params : GoValue) (hc : c.initialized = true) :
    (CallMCPServer unmarshal tr c method params).sent = [Message.callTool method params] ∧
    (CallMCPServer unmarshal tr c method params).client = c := by
  unfold CallMCPServer
  cases hcall : tr.callTool method params with
  | error e => by_cases h : isUnreachable e = true <;> simp [hc, h]
  | ok reply => simp [hc]

/-- On a session that has not done the handshake, with a transport that accepts it, a
call sends the handshake message, then the operation message, and marks the session. -/
theorem CallMCPServer_fresh (unmarshal : String → Option GoValue) (tr : Transport)
    (c : MCPClient) (method : String) (params : GoValue)
    (hc : c.initialized = false) (hi : tr.initErr = none) :
    (CallMCPServer unmarshal tr c method params).sent =
      [Message.init "2024-11-05", Message.callTool method params] ∧
    (CallMCPServer unmarshal tr c method params).client = { c with initialized := true } := by
  unfold CallMCPServer
  cases hcall : tr.callTool method params with
  | error e => by_cases h : isUnreachable e = true <;> simp [hc, hi, h]
  | ok reply => simp [hc, hi]

/-- Calls issued in turn on a session that has done the handshake each send their
operation message alone. -/
theorem callsInTurn_initialized (unmarshal : String → Option GoValue)
    (later : List (Transport × String × GoValue)) (c : MCPClient)
    (hc : c.initialized = true) :
    (callsInTurn unmarshal c later).map (fun o => o.sent) =
      later.map (fun call => [Message.callTool call.2.1 call.2.2]) := by
  induction later generalizing c with
  | nil => rfl
  | cons call rest ih =>
    obtain ⟨tr, method, params⟩ := call
    obtain ⟨h1, h2⟩ := CallMCPServer_initialized unmarshal tr c method params hc
    simp only [callsInTurn, List.map_cons, h1, List.cons.injEq, true_and]
    rw [h2]
    exact ih c hc

/-- C15: lazy one-time handshake. Opening a session sends no message; on the session just
opened, with a transport that accepts the handshake, the first `CallMCPServer` sends
exactly one handshake message followed by the operation message; every later
`CallMCPServer` on the same session sends its operation message and no handshake
message. -/
theorem lazy_handshake_once (unmarshal : String → Option GoValue) (env : Environ)
    (uri : String) (c0 : MCPClient) (tr1 : Transport) (method : String) (params : GoValue)
    (later : List (Transport × String × GoValue))
    (hopen : (NewMCPClient env uri none).client = some c0)
    (haccept : tr1.initErr = none) :
    (∀ openErr, (NewMCPClient env uri openErr).sent = []) ∧
    (CallMCPServer unmarshal tr1 c0 method params).sent =
      [Message.init "2024-11-05", Message.callTool method params] ∧
    (callsInTurn unmarshal (CallMCPServer unmarshal tr1 c0 method params).client later).map
        (fun o => o.sent) =
      later.map (fun call => [Message.callTool call.2.1 call.2.2]) := by
  have hfresh : c0.initialized = false := by
    simp only [NewMCPClient, Option.some.injEq] at hopen
    rw [← hopen]
  obtain ⟨h1, h2⟩ := CallMCPServer_fresh unmarshal tr1 c0 method params hfresh haccept
  refine ⟨?_, h1, ?_⟩
  · intro openErr
    cases openErr with
    | none => rfl
    | some e =>
      simp only [NewMCPClient]
      split <;> rfl
  · apply callsInTurn_initialized
    rw [h2]

/-- Witness of C15: a session opened on the default endpoint, a first call and two later
calls, the second of them on a transport that would refuse a handshake. -/
theorem lazy_handshake_once_witness :
    (NewMCPClient [] "http://localhost:8040/mcp" none).client = some freshClient ∧
    (CallMCPServer json.Unmarshal (replyWith []) freshClient "create_agents" .nil).sent =
      [Message.init "2024-11-05", Message.callTool "create_agents" .nil] ∧
    (callsInTurn json.Unmarshal
        (CallMCPServer json.Unmarshal (replyWith []) freshClient "create_agents" .nil).client
        [(replyWith [], "run_workflow", .nil),
          (handshakeFails "connection refused", "deploy_workflow", .nil)]).map
        (fun o => o.sent) =
      [[Message.callTool "run_workflow" .nil], [Message.callTool "deploy_workflow" .nil]] :=
  ⟨rfl,
    (lazy_handshake_once json.Unmarshal [] "http://localhost:8040/mcp" freshClient
      (replyWith []) "create_agents" .nil
      [(replyWith [], "run_workflow", .nil),
        (handshakeFails "connection refused", "deploy_workflow", .nil)] rfl rfl).2⟩

/-- C16: no operation message is sent before the handshake has completed, and nothing is
retried. One `CallMCPServer` sends at most one handshake message and at most one
operation message; it sends the operation message alone when the session had done the
handshake, the handshake message then the operation message when the handshake is
accepted now, and the handshake message alone, returning an error and no response, when
the handshake fails; whenever an operation message was sent, the session has completed
the handshake. -/
theorem handshake_before_operation (unmarshal : String → Option GoValue) (tr : Transport)
    (c : MCPClient) (method : String) (params : GoValue) :
    ((CallMCPServer unmarshal tr c method params).sent.filter Message.isInit).length ≤ 1 ∧
    ((CallMCPServer unmarshal tr c method params).sent.filter Message.isCallTool).length ≤ 1 ∧
    (c.initialized = true →
      (CallMCPServer unmarshal tr c method params).sent = [Message.callTool method params]) ∧
    (c.initialized = false → tr.initErr = none →
      (CallMCPServer unmarshal tr c method params).sent =
        [Message.init "2024-11-05", Message.callTool method params]) ∧
    (∀ e, c.initialized = false → tr.initErr = some e →
      (CallMCPServer unmarshal tr c method params).sent = [Message.init "2024-11-05"] ∧
      (CallMCPServer unmarshal tr c method params).err ≠ none ∧
      (CallMCPServer unmarshal tr c method params).response = none) ∧
    ((∃ msg ∈ (CallMCPServer unmarshal tr c method params).sent, msg.isCallTool = true) →
      (CallMCPServer unmarshal tr c method params).client.initialized = true) := by
  cases hc : c.initialized with
  | true =>
    obtain ⟨h1, h2⟩ := CallMCPServer_initialized unmarshal tr c method params hc
    rw [h1, h2]
    simp [Message.isInit, Message.isCallTool, hc]
  | false =>
    cases hi : tr.initErr with
    | none =>
      obtain ⟨h1, h2⟩ := CallMCPServer_fresh unmarshal tr c method params hc hi
      rw [h1, h2]
      simp [Message.isInit, Message.isCallTool]
    | some e =>
      obtain ⟨h1, h2, h3, h4⟩ :=
        CallMCPServer_handshake_refused unmarshal tr c method params e hc hi
      rw [h1, h2, h3, h4]
      simp [Message.isInit, Message.isCallTool]

/-- Witness of C16: on a fresh session whose handshake is refused, the call returns an
error and has sent the handshake message alone. -/
theorem handshake_before_operation_witness :
    (CallMCPServer json.Unmarshal (handshakeFails "connection refused") freshClient
        "run_workflow" .nil).sent = [Message.init "2024-11-05"] ∧
    (CallMCPServer json.Unmarshal (handshakeFails "connection refused") freshClient
        "run_workflow" .nil).err ≠ none ∧
    (CallMCPServer json.Unmarshal (handshakeFails "connection refused") freshClient
        "run_workflow" .nil).response = none :=
  (handshake_before_operation json.Unmarshal (handshakeFails "connection refused")
    freshClient "run_workflow" .nil).2.2.2.2.1 "connection refused" rfl rfl

/-- C17: for every reply with no content, the nil reply or a reply whose content list is
empty, `CallMCPServer` returns a response with absent `Result` and absent `Error`, and no
Go error. -/
theorem CallMCPServer_no_content (unmarshal : String → Option GoValue) (tr : Transport)
    (c : MCPClient) (method : String) (params : GoValue) (reply : Option CallToolResult)
    (hinit : c.initialized = true ∨ tr.initErr = none)
    (hreply : tr.callTool method params = .ok reply)
    (hempty : reply = none ∨ ∃ isError, reply = some { Content := [], IsError := isError }) :
    (CallMCPServer unmarshal tr c method params).err = none ∧
    ∃ resp, (CallMCPServer unmarshal tr c method params).response = some resp ∧
      resp.Result = GoValue.nil ∧ resp.Error = none ∧
      resp.JSONRPC = "2.0" ∧ resp.ID = 1 := by
  obtain ⟨hr, he⟩ := CallMCPServer_of_reply unmarshal tr c method params _ hinit hreply
  refine ⟨he, _, hr, ?_⟩
  rcases hempty with h | ⟨isError, h⟩ <;> subst h <;> simp [convertResponse]

/-- Witness of C17 at the nil reply. -/
theorem CallMCPServer_no_content_witness :
    (CallMCPServer json.Unmarshal replyNil freshClient "serve_workflow" .nil).err = none ∧
    ∃ resp, (CallMCPServer json.Unmarshal replyNil freshClient
        "serve_workflow" .nil).response = some resp ∧
      resp.Result = GoValue.nil ∧ resp.Error = none ∧
      resp.JSONRPC = "2.0" ∧ resp.ID = 1 :=
  CallMCPServer_no_content json.Unmarshal replyNil freshClient "serve_workflow" .nil none
    (Or.inr rfl) rfl (Or.inl rfl)

/-! ## Closing a session, and opening one from a command -/

/-- C19 fails on the code: when the open fails with error `e`, `createAgentsFromYAML` and
`deployToTarget` do not return `e`. The line `client, _ := common.NewMCPClient(serverURI)`
drops `e`, the function goes on with the nil session, and the call through it (or, when a
file cannot be read, the deferred `Close`) panics. Here the explicit address is
"http://%zz", which the transport rejects as a malformed URL. -/
theorem open_failure_not_surfaced :
    GetMaestroMCPServerURI .missing [] "http://%zz" = .ok "http://%zz/mcp" ∧
    (NewMCPClient [] "http://%zz/mcp"
        (some "parse \"http://%zz/mcp\": invalid URL escape \"%zz\"")).err =
      some "failed to create MCP client: parse \"http://%zz/mcp\": invalid URL escape \"%zz\"" ∧
    createAgentsFromYAML
        (worldOpenFails "parse \"http://%zz/mcp\": invalid URL escape \"%zz\"")
        "http://%zz" ["agent"] =
      GoResult.panic "runtime error: invalid memory address or nil pointer dereference" ∧
    deployToTarget (worldOpenFails "parse \"http://%zz/mcp\": invalid URL escape \"%zz\"")
        "http://%zz" (.ok "agents") (.ok "workflow") "kubernetes" "" =
      GoResult.panic "runtime error: invalid memory address or nil pointer dereference" ∧
    deployToTarget (worldOpenFails "parse \"http://%zz/mcp\": invalid URL escape \"%zz\"")
        "http://%zz" (.error "open agents.yaml: no such file or directory") (.ok "workflow")
        "kubernetes" "" =
      GoResult.panic "runtime error: invalid memory address or nil pointer dereference" := by
  refine ⟨rfl, by decide, rfl, rfl, rfl⟩

/-! ## The deadline of a session -/

/-- C20: the deadline of a session is fixed at open time from the test-mode flag alone.
`NewMCPClient` uses a deadline of 5 seconds if and only if `MAESTRO_K_TEST_MODE` is exactly
"true", and of 30 seconds for every other value, whatever the endpoint and the outcome of
the open; the test-mode deadline is strictly shorter; the session opened carries that
deadline and a call never changes it. -/
theorem deadline_from_test_mode (env : Environ) (uri : String) (openErr : Option String) :
    ((NewMCPClient env uri openErr).timeout = 5 ↔ Getenv env "MAESTRO_K_TEST_MODE" = "true") ∧
    (Getenv env "MAESTRO_K_TEST_MODE" ≠ "true" → (NewMCPClient env uri openErr).timeout = 30) ∧
    (∀ (env2 : Environ) (uri2 : String) (openErr2 : Option String),
      Getenv env "MAESTRO_K_TEST_MODE" = "true" → Getenv env2 "MAESTRO_K_TEST_MODE" ≠ "true" →
      (NewMCPClient env uri openErr).timeout < (NewMCPClient env2 uri2 openErr2).timeout) ∧
    (∀ c, (NewMCPClient env uri openErr).client = some c →
      c.timeout = (NewMCPClient env uri openErr).timeout ∧
      ∀ (unmarshal : String → Option GoValue) (tr : Transport) (method : String)
        (params : GoValue),
        (CallMCPServer unmarshal tr c method params).client.timeout = c.timeout) := by
  have ht : ∀ (e : Environ) (u : String) (o : Option String),
      (NewMCPClient e u o).timeout = if Getenv e "MAESTRO_K_TEST_MODE" = "true" then 5 else 30 := by
    intro e u o
    cases o with
    | none => rfl
    | some x =>
      simp only [NewMCPClient]
      split <;> rfl
  have hcall : ∀ (unmarshal : String → Option GoValue) (tr : Transport) (c : MCPClient)
      (method : String) (params : GoValue),
      (CallMCPServer unmarshal tr c method params).client.timeout = c.timeout := by
    intro unmarshal tr c method params
    cases hc : c.initialized with
    | true => rw [(CallMCPServer_initialized unmarshal tr c method params hc).2]
    | false =>
      cases hi : tr.initErr with
      | none => rw [(CallMCPServer_fresh unmarshal tr c method params hc hi).2]
      | some e =>
        rw [(CallMCPServer_handshake_refused unmarshal tr c method params e hc hi).2.2.2]
  refine ⟨?_, ?_, ?_, ?_⟩
  · rw [ht]
    by_cases h : Getenv env "MAESTRO_K_TEST_MODE" = "true" <;> simp [h]
  · intro h
    rw [ht, if_neg h]
  · intro env2 uri2 openErr2 h h2
    rw [ht, ht, if_pos h, if_neg h2]
    decide
  · intro c hc
    refine ⟨?_, fun unmarshal tr method params => hcall unmarshal tr c method params⟩
    cases openErr with
    | none =>
      simp only [NewMCPClient, Option.some.injEq] at hc
      rw [← hc]
      rfl
    | some x =>
      simp only [NewMCPClient] at hc
      split at hc <;> cases hc

/-- Witness of C20: the flag "true" gives 5 seconds; the flag unset, "1" and "TRUE" give
30 seconds. -/
theorem deadline_from_test_mode_witness :
    (NewMCPClient [("MAESTRO_K_TEST_MODE", "true")] "http://localhost:8040/mcp" none).timeout
      = 5 ∧
    (NewMCPClient [] "http://localhost:8040/mcp" none).timeout = 30 ∧
    (NewMCPClient [("MAESTRO_K_TEST_MODE", "1")] "http://localhost:8040/mcp" none).timeout
      = 30 ∧
    (NewMCPClient [("MAESTRO_K_TEST_MODE", "TRUE")] "http://localhost:8040/mcp" none).timeout
      = 30 :=
  ⟨(deadline_from_test_mode [("MAESTRO_K_TEST_MODE", "true")] "http://localhost:8040/mcp"
      none).1.2 (by decide),
    (deadline_from_test_mode [] "http://localhost:8040/mcp" none).2.1 (by decide),
    (deadline_from_test_mode [("MAESTRO_K_TEST_MODE", "1")] "http://localhost:8040/mcp"
      none).2.1 (by decide),
    (deadline_from_test_mode [("MAESTRO_K_TEST_MODE", "TRUE")] "http://localhost:8040/mcp"
      none).2.1 (by decide)⟩

/-! ## Lemmas on `sanitizeName` -/

/-- A property of characters that holds for the 128 ASCII characters holds for every
character below 128. -/
theorem ascii_forall (P : Char → Bool) (h : ∀ n, n < 128 → P (Char.ofNat n) = true)
    (c : Char) (hc : c.toNat < 128) : P c = true := by
  have h1 := h c.toNat hc
  rwa [Char.ofNat_toNat] at h1

/-- A character not above "z" is an ASCII character. -/
theorem toNat_lt_of_le_z (c : Char) (h : c ≤ 'z') : c.toNat < 128 := by
  have h1 : c.toNat ≤ 'z'.toNat := h
  have h2 : 'z'.toNat = 122 := by decide
  omega

theorem alnum_ascii (c : Char) (h : alnumRanges.has c = true) : c.toNat < 128 := by
  simp only [CharClass.has, alnumRanges, List.any_cons, List.any_nil, Bool.or_false,
    Bool.or_eq_true, Bool.and_eq_true, decide_eq_true_eq] at h
  apply toNat_lt_of_le_z
  rcases h with h | h | h
  · exact h.2
  · exact Char.le_trans h.2 (by decide)
  · exact Char.le_trans h.2 (by decide)

theorem nameChar_ascii (c : Char) (h : isNameChar c = true) : c.toNat < 128 := by
  simp only [isNameChar, Bool.or_eq_true, Bool.and_eq_true, decide_eq_true_eq,
    beq_iff_eq] at h
  apply toNat_lt_of_le_z
  rcases h with (h | h) | h
  · exact h.2
  · exact Char.le_trans h.2 (by decide)
  · rw [h]; decide

set_option maxRecDepth 100000 in
/-- What one character of the name becomes is a lowercase letter, a digit or a hyphen. -/
theorem nameChar_of_body (c : Char) :
    isNameChar (if alnumRanges.has c then c else '-').toLower = true := by
  by_cases h : alnumRanges.has c = true
  · exact ascii_forall
      (fun c => isNameChar (if alnumRanges.has c then c else '-').toLower)
      (by decide) c (alnum_ascii c h)
  · have h1 : alnumRanges.has c = false := by simpa using h
    simp only [h1, Bool.false_eq_true, if_false]
    decide

set_option maxRecDepth 100000 in
/-- A lowercase letter, a digit or a hyphen is left as it is by the first two steps, is
not a space, and is in the end class exactly when it is "0", "9" or "-". -/
theorem nameChar_facts (c : Char) (h : isNameChar c = true) :
    (if alnumRanges.has c then c else '-').toLower = c ∧ c ≠ ' ' ∧
    (endClass.has c = true ↔ (c = '0' ∨ c = '9' ∨ c = '-')) := by
  have key := ascii_forall
    (fun c => !isNameChar c ||
      (decide ((if alnumRanges.has c then c else '-').toLower = c) && decide (c ≠ ' ') &&
        (endClass.has c == (c == '0' || c == '9' || c == '-'))))
    (by decide) c (nameChar_ascii c h)
  simp only [h, Bool.not_true, Bool.false_or, Bool.and_eq_true, decide_eq_true_eq,
    beq_iff_eq] at key
  refine ⟨key.1.1, key.1.2, ?_⟩
  rw [key.2]
  simp [or_assoc]

/-- Replacing by the one-character text "-" is a replacement character by character. -/
theorem replaceNonAlnum_data (name : String) :
    (replaceNonAlnum name "-").data =
      name.data.map (fun c => if alnumRanges.has c then c else '-') := by
  simp only [replaceNonAlnum]
  induction name.data with
  | nil => rfl
  | cons c cs ih =>
    simp only [List.flatMap_cons, List.map_cons, ih]
    by_cases h : alnumRanges.has c = true
    · simp [h]
    · have h1 : alnumRanges.has c = false := by simpa using h
      simp only [h1, Bool.false_eq_true, if_false]
      rfl

/-- The characters of the body of a name. -/
theorem sanitizedBody_data (name : String) :
    (sanitizedBody name).data =
      name.data.map (fun c => (if alnumRanges.has c then c else '-').toLower) := by
  simp only [sanitizedBody, strings.ToLower, replaceNonAlnum_data, List.map_map]
  rfl

/-- Every character of the body of a name is a lowercase letter, a digit or a hyphen. -/
theorem sanitizedBody_nameChars (name : String) :
    ∀ c ∈ (sanitizedBody name).data, isNameChar c = true := by
  intro c hc
  rw [sanitizedBody_data] at hc
  obtain ⟨d, _, hd⟩ := List.mem_map.mp hc
  rw [← hd]
  exact nameChar_of_body d

/-- A text without the first character of `old` is left as it is by the scan. -/
theorem strings.replaceFrom_of_not_mem (o : Char) (old new : List Char) (fuel : Nat)
    (s : List Char) (h : o ∉ s) : strings.replaceFrom (o :: old) new fuel s = s := by
  induction fuel generalizing s with
  | zero => rfl
  | succ n ih =>
    cases s with
    | nil => rfl
    | cons c cs =>
      have hc : o ≠ c := fun e => h (by simp [e])
      have hcs : o ∉ cs := fun e => h (by simp [e])
      have hb : (o == c) = false := by simpa using hc
      simp only [strings.replaceFrom, List.isPrefixOf, hb, Bool.false_and,
        Bool.false_eq_true, if_false, ih cs hcs]

/-- The code of `sanitizeName` in terms of the body of the name: the third step, which
replaces spaces, finds none. -/
theorem sanitizeName_eq (name : String) :
    sanitizeName name =
      if matchesEndClass (sanitizedBody name) then sanitizedBody name ++ "e"
      else sanitizedBody name := by
  have hre : strings.ReplaceAll (sanitizedBody name) " " "-" = sanitizedBody name := by
    apply String.ext
    have hsp : ' ' ∉ (sanitizedBody name).data := by
      intro hmem
      have := (nameChar_facts ' ' (sanitizedBody_nameChars name ' ' hmem)).2.1
      exact this rfl
    have hold : (" " : String).data = [' '] := rfl
    simp only [strings.ReplaceAll, hold, List.isEmpty_cons, Bool.false_eq_true, if_false]
    exact strings.replaceFrom_of_not_mem ' ' [] _ _ _ hsp
  unfold sanitizeName
  simp only [← sanitizedBody.eq_1, hre]

/-- A text made of lowercase letters, digits and hyphens is its own body. -/
theorem sanitizedBody_of_nameChars (s : String) (h : ∀ c ∈ s.data, isNameChar c = true) :
    sanitizedBody s = s := by
  apply String.ext
  rw [sanitizedBody_data]
  conv_rhs => rw [← List.map_id s.data]
  apply List.map_congr_left
  intro c hc
  exact (nameChar_facts c (h c hc)).1

/-- Every character of the result of `sanitizeName` is a lowercase letter, a digit or a
hyphen. -/
theorem sanitizeName_nameChars (name : String) :
    ∀ c ∈ (sanitizeName name).data, isNameChar c = true := by
  intro c hc
  rw [sanitizeName_eq] at hc
  split at hc
  · rw [String.data_append, List.mem_append] at hc
    rcases hc with h | h
    · exact sanitizedBody_nameChars name c h
    · have he : ("e" : String).data = ['e'] := rfl
      rw [he, List.mem_singleton] at h
      rw [h]; decide
  · exact sanitizedBody_nameChars name c hc

/-- The result of `sanitizeName` does not match the end class. -/
theorem sanitizeName_not_matchesEnd (name : String) :
    matchesEndClass (sanitizeName name) = false := by
  rw [sanitizeName_eq]
  split
  · have he : ("e" : String).data = ['e'] := rfl
    simp only [matchesEndClass, String.data_append, he, List.getLast?_append_cons,
      List.getLast?_singleton]
    decide
  · rename_i h
    simpa using h

/-- The letter "e" is appended exactly when the body of the name ends with "0", "9" or
"-". -/
theorem sanitizeName_appends_iff (name : String) :
    (sanitizeName name = sanitizedBody name ++ "e" ↔
      ∃ c, (sanitizedBody name).data.getLast? = some c ∧ (c = '0' ∨ c = '9' ∨ c = '-')) ∧
    (sanitizeName name ≠ sanitizedBody name ++ "e" → sanitizeName name = sanitizedBody name) := by
  have hne : sanitizedBody name ≠ sanitizedBody name ++ "e" := by
    intro h
    have h1 := congrArg (fun s => s.data.length) h
    have he : ("e" : String).data = ['e'] := rfl
    simp [String.data_append, he] at h1
  rw [sanitizeName_eq]
  by_cases hm : matchesEndClass (sanitizedBody name) = true
  · simp only [hm, if_true, true_iff, ne_eq, not_true_eq_false, false_implies, and_true]
    unfold matchesEndClass at hm
    cases hl : (sanitizedBody name).data.getLast? with
    | none => rw [hl] at hm; cases hm
    | some c =>
      rw [hl] at hm
      have hc := sanitizedBody_nameChars name c (List.mem_of_getLast?_eq_some hl)
      exact ⟨c, rfl, (nameChar_facts c hc).2.2.mp hm⟩
  · have hm1 : matchesEndClass (sanitizedBody name) = false := by simpa using hm
    simp only [hm1, Bool.false_eq_true, if_false, hne, false_iff, ne_eq, not_false_eq_true,
      true_implies, and_true]
    rintro ⟨c, hl, hc⟩
    have hn := sanitizedBody_nameChars name c (List.mem_of_getLast?_eq_some hl)
    have := (nameChar_facts c hn).2.2.mpr hc
    simp [matchesEndClass, hl, this] at hm1

/-! ## `sanitizeName`: the claims -/

/-- C22 fails on the code at "test-agent-1": the body of the name is "test-agent-1", it
ends with the digit "1", and `sanitizeName` returns it without the "e". The class of
`[.-0-9]$` holds ".", "/", "0", "-" and "9", not the digits "1" to "8". -/
theorem sanitizeName_digit_without_e :
    sanitizedBody "test-agent-1" = "test-agent-1" ∧
    ("test-agent-1".data.getLast? = some '1' ∧ '0' ≤ '1' ∧ '1' ≤ '9') ∧
    endClass.has '1' = false ∧
    sanitizeName "test-agent-1" = "test-agent-1" ∧
    sanitizeName "test-agent-1" ≠ sanitizedBody "test-agent-1" ++ "e" := by
  decide

/-- C29: `sanitizeName` is idempotent. For every name,
`sanitizeName (sanitizeName name) = sanitizeName name`: on the result of a first pass the
replacement and the lower-casing change nothing, and no further "e" is appended. -/
theorem sanitizeName_idempotent (name : String) :
    sanitizeName (sanitizeName name) = sanitizeName name ∧
    sanitizedBody (sanitizeName name) = sanitizeName name ∧
    matchesEndClass (sanitizeName name) = false := by
  have hb := sanitizedBody_of_nameChars _ (sanitizeName_nameChars name)
  have hm := sanitizeName_not_matchesEnd name
  refine ⟨?_, hb, hm⟩
  rw [sanitizeName_eq (sanitizeName name), hb, hm]
  simp

/-- C30: `sanitizeName` produces well-formed name characters. For every input, every
character of the output is a lowercase ASCII letter, a digit or a hyphen, and an output
that is not empty does not end with a hyphen. -/
theorem sanitizeName_wellFormed (name : String) :
    (∀ c ∈ (sanitizeName name).data,
      ('a' ≤ c ∧ c ≤ 'z') ∨ ('0' ≤ c ∧ c ≤ '9') ∨ c = '-') ∧
    (sanitizeName name ≠ "" → (sanitizeName name).data.getLast? ≠ some '-') := by
  constructor
  · intro c hc
    have h := sanitizeName_nameChars name c hc
    simpa [isNameChar, or_assoc] using h
  · intro _ hl
    have hm := sanitizeName_not_matchesEnd name
    simp only [matchesEndClass, hl] at hm
    exact absurd hm (by decide)

/-- Witness of C30: the output for "My App." is "my-app-e". -/
theorem sanitizeName_wellFormed_witness :
    sanitizeName "My App." = "my-app-e" ∧ sanitizeName "My App." ≠ "" ∧
    (sanitizeName "My App.").data.getLast? ≠ some '-' :=
  ⟨by decide, by decide, (sanitizeName_wellFormed "My App.").2 (by decide)⟩

/-! ## `ParseYAML`, the validator of the serve command, and the classifier -/

/-- The loop of `ParseYAML` on documents that are all mappings, followed by a failure or
by the end of the stream. -/
theorem decodeLoop_of_mappings (p : String) (docs : List YAMLDocument)
    (tail : List DecodeOutcome) (acc : List YAMLDocument)
    (htail : tail = [] ∨ ∃ e more, tail = DecodeOutcome.failure e :: more) :
    decodeLoop p (docs.map (fun d => DecodeOutcome.document (some d)) ++ tail) acc =
      .ret (acc ++ docs.map (fun d => json.mapSet d "source_file" (.string p))) := by
  induction docs generalizing acc with
  | nil =>
    rcases htail with h | ⟨e, more, h⟩ <;> subst h <;> simp [decodeLoop]
  | cons d rest ih =>
    simp only [List.map_cons, List.cons_append, decodeLoop, List.append_eq]
    rw [ih]
    simp

/-- When every document decoded before the first failure is a mapping, `ParseYAML`
returns these documents in order, each with "source_file" set, and fails with "no valid
YAML documents found in file" exactly when there is none. -/
theorem ParseYAML_of_mappings (p : String) (docs : List YAMLDocument)
    (tail : List DecodeOutcome)
    (htail : tail = [] ∨ ∃ e more, tail = DecodeOutcome.failure e :: more) :
    ParseYAML
        { readErr := none,
          decodes := docs.map (fun d => DecodeOutcome.document (some d)) ++ tail,
          absPath := p } =
      .ret (if docs.isEmpty then .error "no valid YAML documents found in file"
        else .ok (docs.map (fun d => json.mapSet d "source_file" (.string p)))) := by
  simp only [ParseYAML, decodeLoop_of_mappings p docs tail [] htail, List.nil_append]
  cases docs <;> simp

/-- C21 fails on the code for a file whose second document is empty, as in
"kind: Test" followed by a line "---": the decoder reports no error and leaves the
document the nil map, and the assignment of "source_file" panics, so `ParseYAML` does not
return the documents decoded before the first failure. On the two-document file of
`TestParseYAML` it returns both documents, of kinds Test and Test2, with "source_file"
set. -/
theorem ParseYAML_null_document_panics :
    ParseYAML
        { readErr := none,
          decodes := [.document (some [("kind", .string "Test")]),
            .document (some [("kind", .string "Test2")]), .failure "EOF"],
          absPath := "/tmp/test.yaml" } =
      .ret (.ok [[("kind", .string "Test"), ("source_file", .string "/tmp/test.yaml")],
        [("kind", .string "Test2"), ("source_file", .string "/tmp/test.yaml")]]) ∧
    ParseYAML
        { readErr := none,
          decodes := [.document (some [("kind", .string "Test")]), .document none,
            .failure "EOF"],
          absPath := "/tmp/test.yaml" } =
      .panic "assignment to entry in nil map" :=
  ⟨rfl, rfl⟩

/-- C26 fails on the code for one positional argument: `cobra.RangeArgs(1, 2)` accepts
the list, reading `args[0]` succeeds, and reading `args[1]` panics, so the command
panics instead of running. -/
theorem workflowServe_one_argument_panics :
    RangeArgs 1 2 ["workflow.yaml"] = none ∧
    sliceIndex ["workflow.yaml"] 0 = GoResult.ret "workflow.yaml" ∧
    sliceIndex ["workflow.yaml"] 1 =
      GoResult.panic "runtime error: index out of range [1] with length 1" ∧
    executeCommand (RangeArgs 1 2)
        (workflowServeRunE (worldReplies []) localWorkflow "127.0.0.1" "8000" "")
        ["workflow.yaml"] =
      GoResult.panic "runtime error: index out of range [1] with length 1" := by
  decide

/-- C27: the result of `CallMCPServer` depends on the first content item only. Two
replies with the same first item give equal responses, whatever their later items are,
and when the first item is not a text both `Result` and `Error` are absent. -/
theorem CallMCPServer_first_item_only (unmarshal : String → Option GoValue)
    (tr1 tr2 : Transport) (c : MCPClient) (method : String) (params : GoValue)
    (first : Content) (rest1 rest2 : List Content) (isError1 isError2 : Bool)
    (hinit1 : c.initialized = true ∨ tr1.initErr = none)
    (hinit2 : c.initialized = true ∨ tr2.initErr = none)
    (h1 : tr1.callTool method params
      = .ok (some { Content := first :: rest1, IsError := isError1 }))
    (h2 : tr2.callTool method params
      = .ok (some { Content := first :: rest2, IsError := isError2 })) :
    (CallMCPServer unmarshal tr1 c method params).response =
      (CallMCPServer unmarshal tr2 c method params).response ∧
    (CallMCPServer unmarshal tr1 c method params).err = none ∧
    (CallMCPServer unmarshal tr2 c method params).err = none ∧
    (AsTextContent first = none →
      ∃ resp, (CallMCPServer unmarshal tr1 c method params).response = some resp ∧
        resp.Result = GoValue.nil ∧ resp.Error = none) := by
  obtain ⟨r1, e1⟩ := CallMCPServer_of_reply unmarshal tr1 c method params _ hinit1 h1
  obtain ⟨r2, e2⟩ := CallMCPServer_of_reply unmarshal tr2 c method params _ hinit2 h2
  refine ⟨?_, e1, e2, ?_⟩
  · rw [r1, r2]
    rfl
  · intro hf
    refine ⟨_, r1, ?_⟩
    simp [convertResponse, hf]

/-- Witness of C27: a sentinel text in the second item is not reported. -/
theorem CallMCPServer_first_item_only_witness :
    (CallMCPServer json.Unmarshal (replyWith [.text "ok"]) freshClient
        "run_workflow" .nil).response =
      (CallMCPServer json.Unmarshal (replyWith [.text "ok", .text "Error: hidden"])
        freshClient "run_workflow" .nil).response :=
  (CallMCPServer_first_item_only json.Unmarshal (replyWith [.text "ok"])
    (replyWith [.text "ok", .text "Error: hidden"]) freshClient "run_workflow" .nil
    (.text "ok") [] [.text "Error: hidden"] false false (Or.inr rfl) (Or.inr rfl) rfl rfl).1

/-- A text occurs in another exactly when the other is some text, then it, then some
text. -/
theorem strings.indexFrom_iff (sub s : List Char) :
    strings.indexFrom sub s = true ↔ ∃ pre post, s = pre ++ sub ++ post := by
  induction s with
  | nil =>
    simp only [strings.indexFrom, List.isPrefixOf_iff_prefix]
    constructor
    · rintro ⟨t, ht⟩
      exact ⟨[], t, by simpa using ht.symm⟩
    · rintro ⟨pre, post, h⟩
      have h1 := congrArg List.length h
      simp only [List.length_nil, List.length_append] at h1
      have hs : sub = [] := List.eq_nil_of_length_eq_zero (by omega)
      subst hs
      exact List.nil_prefix
  | cons c t ih =>
    simp only [strings.indexFrom, Bool.or_eq_true, List.isPrefixOf_iff_prefix, ih]
    constructor
    · rintro (⟨post, hp⟩ | ⟨pre, post, h⟩)
      · exact ⟨[], post, by simpa using hp.symm⟩
      · exact ⟨c :: pre, post, by simp [h]⟩
    · rintro ⟨pre, post, h⟩
      cases pre with
      | nil => exact Or.inl ⟨post, by simpa using h.symm⟩
      | cons a pre1 =>
        simp only [List.cons_append, List.cons.injEq] at h
        exact Or.inr ⟨pre1, post, h.2⟩

/-- Every text that contains "ValueError:" contains "Error:". -/
theorem contains_ValueError (t : String) (h : strings.Contains t "ValueError:" = true) :
    strings.Contains t "Error:" = true := by
  unfold strings.Contains at h ⊢
  rw [strings.indexFrom_iff] at h ⊢
  obtain ⟨pre, post, hs⟩ := h
  refine ⟨pre ++ "Value".data, post, ?_⟩
  rw [hs]
  have : ("ValueError:" : String).data = "Value".data ++ "Error:".data := rfl
  rw [this]
  simp

/-- C28: the sentinel "ValueError:" is redundant. Every text that contains "ValueError:"
contains "Error:", so for every reply text the test of the four sentinels and the test
of "Error:", "Exception:" and "Error calling tool" agree, and the classifier that uses
the second gives, for every reply, the response that the code gives. -/
theorem ValueError_sentinel_redundant (unmarshal : String → Option GoValue)
    (t : String) (reply : Option CallToolResult) :
    (strings.Contains t "ValueError:" = true → strings.Contains t "Error:" = true) ∧
    hasErrorSentinel t = hasThreeSentinels t ∧
    convertResponse unmarshal reply = convertResponseThree unmarshal reply := by
  have hsame : ∀ s, hasErrorSentinel s = hasThreeSentinels s := by
    intro s
    unfold hasErrorSentinel hasThreeSentinels
    cases hv : strings.Contains s "ValueError:" with
    | false => simp
    | true => simp [contains_ValueError s hv]
  refine ⟨contains_ValueError t, hsame t, ?_⟩
  unfold convertResponse convertResponseThree
  simp only [hsame]

/-- Witness of C28 at the text "ValueError: bad input". -/
theorem ValueError_sentinel_redundant_witness :
    strings.Contains "ValueError: bad input" "ValueError:" = true ∧
    strings.Contains "ValueError: bad input" "Error:" = true :=
  ⟨by decide,
    (ValueError_sentinel_redundant json.Unmarshal "ValueError: bad input" none).1
      (by decide)⟩

/-! ## The commands: tool errors, failures of the run, and the success payload -/

/-- Unless the `.env` file is present and does not load, an endpoint is returned. -/
theorem GetMaestroMCPServerURI_ok (w : World) (uri : String)
    (hfile : ∀ err, w.file ≠ DotEnvFile.unloadable err) :
    ∃ serverURI, GetMaestroMCPServerURI w.file w.env uri = .ok serverURI := by
  cases hf : w.file with
  | missing => simp [GetMaestroMCPServerURI, godotenvLoad]
  | unloadable err => exact absurd hf (hfile err)
  | loadable vars => simp [GetMaestroMCPServerURI, godotenvLoad]

/-- On the session of an open that succeeded, the deferred `Close` returns. -/
theorem deferClose_opened (w : World) (serverURI : String) (hopen : w.openErr = none)
    {α : Type} (body : GoResult α) :
    deferClose w.transportClose (NewMCPClient w.envLoaded serverURI w.openErr).client body
      = body := by
  simp [hopen, NewMCPClient, deferClose, Close]

/-- On the session of an open that succeeded, with the handshake accepted, a tool call
that yields a reply returns the converted reply and no error. -/
theorem toolCall_of_reply (w : World) (serverURI method : String) (params : GoValue)
    (reply : Option CallToolResult) (hopen : w.openErr = none)
    (hinit : w.transport.initErr = none)
    (hreply : w.transport.callTool method params = .ok reply) :
    ∃ o, callThrough w.unmarshal w.transport
        (NewMCPClient w.envLoaded serverURI w.openErr).client method params = .ret o ∧
      o.err = none ∧ o.response = some (convertResponse w.unmarshal reply) := by
  simp only [hopen, NewMCPClient, callThrough]
  obtain ⟨h1, h2⟩ := CallMCPServer_of_reply w.unmarshal w.transport
    { initialized := false, baseURL := serverURI,
      timeout := if Getenv w.envLoaded "MAESTRO_K_TEST_MODE" = "true" then 5 else 30 }
    method params reply (Or.inr hinit) hreply
  exact ⟨_, rfl, h2, h1⟩

/-- On the session of an open that succeeded, with the handshake accepted, a tool call
that fails returns the error of `CallMCPServer`. -/
theorem toolCall_of_failure (w : World) (serverURI method : String) (params : GoValue)
    (e : String) (hopen : w.openErr = none) (hinit : w.transport.initErr = none)
    (hcall : w.transport.callTool method params = .error e) :
    ∃ o, callThrough w.unmarshal w.transport
        (NewMCPClient w.envLoaded serverURI w.openErr).client method params = .ret o ∧
      o.err = some (if isUnreachable e then unreachableMessage serverURI
        else "failed to call MCP tool " ++ method ++ ": " ++ e) := by
  simp only [hopen, NewMCPClient, callThrough]
  obtain ⟨h1, _⟩ := CallMCPServer_call_failed w.unmarshal w.transport
    { initialized := false, baseURL := serverURI,
      timeout := if Getenv w.envLoaded "MAESTRO_K_TEST_MODE" = "true" then 5 else 30 }
    method params e (Or.inr hinit) hcall
  exact ⟨_, rfl, h1⟩

/-- The method `runWorkflow` when the endpoint is resolved, the open succeeds, the
workflow document is marshalled and the tool call yields a reply. -/
theorem runWorkflow_of_reply (w : World) (loc : Local) (uri serverURI : String)
    (workflow : YAMLDocument) (agents : List YAMLDocument) (ws : String)
    (reply : Option CallToolResult)
    (hget : GetMaestroMCPServerURI w.file w.env uri = .ok serverURI)
    (hopen : w.openErr = none) (hinit : w.transport.initErr = none)
    (hmarshal : loc.marshal workflow = some ws)
    (hreply : ∀ method params, w.transport.callTool method params = .ok reply) :
    runWorkflow w loc uri workflow agents =
      .ret (.response (some (convertResponse w.unmarshal reply)), none) := by
  unfold runWorkflow
  simp only [hget]
  rw [deferClose_opened w serverURI hopen]
  simp only [YamlToString, List.filterMap_cons, hmarshal, List.filterMap_nil, sliceIndex,
    List.get?_cons_zero]
  obtain ⟨o, ho, he, hr⟩ := toolCall_of_reply w serverURI "run_workflow"
    (.map [("agents", .slice ((List.filterMap loc.marshal agents).map GoValue.string)),
      ("workflow", .string ws)]) reply hopen hinit (hreply _ _)
  rw [ho]
  simp only [he, hr]

/-- The method `Run` once the workflow file and the agents are parsed. -/
theorem Run_of_parsed (c : RunCommand) (w : World) (loc : Local)
    (first : YAMLDocument) (others agentsYaml : List YAMLDocument)
    (hworkflow : ParseYAML (loc.parse c.workflowFile) = .ret (.ok (first :: others)))
    (hagents : c.parseAgents loc = .ret (.ok agentsYaml)) :
    c.Run w loc =
      match runWorkflow w loc c.mcpServerURI
          (if c.prompt then setTemplatePrompt first loc.userPrompt else first) agentsYaml with
      | .panic msg => (.panic msg, none)
      | .ret (_, some err) =>
        (.ret (some err),
          some
            { workflowName := "UNKNOWN", prompt := "", output := "",
              modelsUsed := [], status := "error" })
      | .ret (result, none) =>
        finishRun
          (extractWorkflowName (if c.prompt then setTemplatePrompt first loc.userPrompt
            else first))
          (extractPrompt (if c.prompt then setTemplatePrompt first loc.userPrompt else first))
          (agentsYaml.flatMap agentModel) result := by
  unfold RunCommand.Run
  simp only [hworkflow, hagents, sliceIndex, List.get?_cons_zero]

/-- The method `runWorkflow` never returns a non-nil error. -/
theorem runWorkflow_err_nil (w : World) (loc : Local) (uri : String)
    (workflow : YAMLDocument) (agents : List YAMLDocument) (v : RunValue)
    (e : Option String) (h : runWorkflow w loc uri workflow agents = .ret (v, e)) :
    e = none := by
  unfold runWorkflow at h
  cases hget : GetMaestroMCPServerURI w.file w.env uri with
  | error err =>
    rw [hget] at h
    simp only [GoResult.ret.injEq, Prod.mk.injEq] at h
    exact h.2.symm
  | ok serverURI =>
    rw [hget] at h
    simp only [deferClose] at h
    split at h
    · cases h
    · split at h
      · cases h
      · split at h
        · cases h
        · split at h
          · simp only [GoResult.ret.injEq, Prod.mk.injEq] at h
            exact h.2.symm
          · simp only [GoResult.ret.injEq, Prod.mk.injEq] at h
            exact h.2.symm

/-- C23: a server-reported tool error never makes a command fail. When the server is
reached and answers with a reply whose first item is a text containing a sentinel,
`CallMCPServer` returns a nil Go error; `createAgentsFromYAML`, `deployToTarget` and the
serve functions, once their files are read, return nil; and `RunCommand.Run`, once its
files are parsed, returns nil after logging the run with status "success" and an empty
output. -/
theorem tool_error_never_fails (w : World) (loc : Local) (t : String)
    (rest : List Content) (isError : Bool)
    (hfile : ∀ err, w.file ≠ DotEnvFile.unloadable err) (hopen : w.openErr = none)
    (hinit : w.transport.initErr = none)
    (hreply : ∀ method params, w.transport.callTool method params
      = .ok (some { Content := Content.text t :: rest, IsError := isError }))
    (hsentinel : strings.Contains t "ValueError:" = true ∨ strings.Contains t "Error:" = true ∨
      strings.Contains t "Exception:" = true ∨ strings.Contains t "Error calling tool" = true) :
    (∀ (c : MCPClient) (method : String) (params : GoValue),
      (CallMCPServer w.unmarshal w.transport c method params).err = none) ∧
    (∀ (uri : String) (agentStrings : List String),
      createAgentsFromYAML w uri agentStrings = .ret none) ∧
    (∀ (uri agents workflow target env : String),
      deployToTarget w uri (.ok agents) (.ok workflow) target env = .ret none) ∧
    (∀ (c : WorkflowServeCommand) (agents workflow : String),
      loc.readFile c.agentsFile = .ok agents → loc.readFile c.workflowFile = .ok workflow →
      c.serveWorkflow w loc = .ret none) ∧
    (∀ (c : AgentServeCommand) (agents : String),
      loc.readFile c.agentsFile = .ok agents → c.serveFastAPIAgent w loc = .ret none) ∧
    (∀ (c : AgentServeCommand) (first : YAMLDocument) (others : List YAMLDocument),
      ParseYAML (loc.parse c.agentsFile) = .ret (.ok (first :: others)) →
      c.serveContainerAgent w loc = .ret none) ∧
    (∀ (c : RunCommand) (first : YAMLDocument) (others agentsYaml : List YAMLDocument)
        (ws : String),
      ParseYAML (loc.parse c.workflowFile) = .ret (.ok (first :: others)) →
      c.parseAgents loc = .ret (.ok agentsYaml) →
      loc.marshal (if c.prompt then setTemplatePrompt first loc.userPrompt else first)
        = some ws →
      (c.Run w loc).1 = .ret none ∧
      ∃ entry, (c.Run w loc).2 = some entry ∧ entry.status = "success" ∧
        entry.output = "") := by
  have hs : hasErrorSentinel t = true := by
    simpa [hasErrorSentinel, or_assoc] using hsentinel
  have hconv : (convertResponse w.unmarshal
      (some { Content := Content.text t :: rest, IsError := isError })).Result = GoValue.nil := by
    simp [convertResponse, AsTextContent, hs]
  have hcall : ∀ (serverURI method : String) (params : GoValue),
      returnCallError (callThrough w.unmarshal w.transport
        (NewMCPClient w.envLoaded serverURI w.openErr).client method params) = .ret none := by
    intro serverURI method params
    obtain ⟨o, ho, he, _⟩ := toolCall_of_reply w serverURI method params _ hopen hinit
      (hreply method params)
    rw [ho]
    simp [returnCallError, he]
  refine ⟨?_, ?_, ?_, ?_, ?_, ?_, ?_⟩
  · intro c method params
    have hi : c.initialized = true ∨ w.transport.initErr = none := Or.inr hinit
    exact (CallMCPServer_of_reply w.unmarshal w.transport c method params _ hi
      (hreply method params)).2
  · intro uri agentStrings
    obtain ⟨serverURI, hget⟩ := GetMaestroMCPServerURI_ok w uri hfile
    unfold createAgentsFromYAML
    simp only [hget]
    rw [deferClose_opened w serverURI hopen]
    exact hcall serverURI _ _
  · intro uri agents workflow target env
    obtain ⟨serverURI, hget⟩ := GetMaestroMCPServerURI_ok w uri hfile
    unfold deployToTarget
    simp only [hget]
    rw [deferClose_opened w serverURI hopen]
    exact hcall serverURI _ _
  · intro c agents workflow ha hw
    obtain ⟨serverURI, hget⟩ := GetMaestroMCPServerURI_ok w c.mcpServerURI hfile
    unfold WorkflowServeCommand.serveWorkflow
    simp only [hget, ha, hw]
    rw [deferClose_opened w serverURI hopen]
    exact hcall serverURI _ _
  · intro c agents ha
    obtain ⟨serverURI, hget⟩ := GetMaestroMCPServerURI_ok w c.mcpServerURI hfile
    unfold AgentServeCommand.serveFastAPIAgent
    simp only [hget, ha]
    rw [deferClose_opened w serverURI hopen]
    exact hcall serverURI _ _
  · intro c first others hp
    obtain ⟨serverURI, hget⟩ := GetMaestroMCPServerURI_ok w c.mcpServerURI hfile
    have hsel : ∃ agentYaml, selectAgent c.agentName (first :: others) = .ret agentYaml := by
      unfold selectAgent
      by_cases hn : c.agentName ≠ ""
      · exact ⟨_, if_pos hn⟩
      · exact ⟨first, by rw [if_neg hn]; rfl⟩
    obtain ⟨agentYaml, hsel⟩ := hsel
    unfold AgentServeCommand.serveContainerAgent
    simp only [hget, hp, hsel]
    rw [deferClose_opened w serverURI hopen]
    exact hcall serverURI _ _
  · intro c first others agentsYaml ws hp ha hm
    obtain ⟨serverURI, hget⟩ := GetMaestroMCPServerURI_ok w c.mcpServerURI hfile
    rw [Run_of_parsed c w loc first others agentsYaml hp ha,
      runWorkflow_of_reply w loc c.mcpServerURI serverURI _ agentsYaml ws _ hget hopen hinit
        hm hreply]
    simp [finishRun, hconv]

/-- Witness of C23: the server answers "Error: bad input"; `createAgentsFromYAML` and
`Run` return nil, and the run is logged with status "success". -/
theorem tool_error_never_fails_witness :
    createAgentsFromYAML (worldReplies [.text "Error: bad input"]) "" ["agent"] = .ret none ∧
    (runDemo.Run (worldReplies [.text "Error: bad input"]) localWorkflow).1 = .ret none ∧
    ∃ entry, (runDemo.Run (worldReplies [.text "Error: bad input"]) localWorkflow).2
        = some entry ∧ entry.status = "success" ∧ entry.output = "" :=
  have h := tool_error_never_fails (worldReplies [.text "Error: bad input"]) localWorkflow
    "Error: bad input" [] false (fun _ h => by cases h) rfl rfl (fun _ _ => rfl)
    (Or.inr (Or.inl (by decide)))
  ⟨h.2.1 "" ["agent"],
    h.2.2.2.2.2.2 runDemo _ [] [] "\x7b\x7d" rfl rfl rfl⟩

/-- The last part of `Run` logs with status "success" only. -/
theorem finishRun_logged (workflowName prompt : String) (modelsUsed : List String)
    (v : RunValue) (entry : LogEntry)
    (h : (finishRun workflowName prompt modelsUsed v).2 = some entry) :
    entry.status = "success" := by
  unfold finishRun at h
  split at h
  · cases h
  · cases h
  · split at h
    · simp only [Option.some.injEq] at h
      rw [← h]
    · split at h
      · simp only [Option.some.injEq] at h
        rw [← h]
      · cases h
    · cases h

/-- Every log entry of `Run` has status "success": the branch that logs "error" and
returns the error of `runWorkflow` is never taken. -/
theorem Run_never_logs_error (c : RunCommand) (w : World) (loc : Local) (entry : LogEntry)
    (h : (c.Run w loc).2 = some entry) : entry.status = "success" := by
  unfold RunCommand.Run at h
  cases hp : ParseYAML (loc.parse c.workflowFile) with
  | panic msg => simp [hp] at h
  | ret r =>
    cases r with
    | error err => simp [hp] at h
    | ok workflowYaml =>
      simp only [hp] at h
      cases ha : c.parseAgents loc with
      | panic msg => simp [ha] at h
      | ret r2 =>
        cases r2 with
        | error err => simp [ha] at h
        | ok agentsYaml =>
          simp only [ha] at h
          cases workflowYaml with
          | nil => simp [sliceIndex] at h
          | cons first others =>
            simp only [sliceIndex, List.get?_cons_zero] at h
            generalize (if c.prompt = true then setTemplatePrompt first loc.userPrompt
              else first) = wf at h
            cases hr : runWorkflow w loc c.mcpServerURI wf agentsYaml with
            | panic msg => simp [hr] at h
            | ret pair =>
              obtain ⟨v, e⟩ := pair
              have he := runWorkflow_err_nil w loc c.mcpServerURI wf agentsYaml v e hr
              subst he
              simp only [hr] at h
              exact finishRun_logged _ _ _ _ _ h

/-- C24: `runWorkflow` never returns a non-nil error. When the endpoint cannot be
resolved, and when the tool call fails, be it at the handshake, which every call of
`runWorkflow` makes since its session is new, or at the call itself, it returns the error
as the value under "result" together with a nil error; `RunCommand.Run` then never takes
its error-reporting branch (no run is logged with status "error"): it reaches the
unchecked assertion of that value to `*MCPResponse`, which panics. -/
theorem runWorkflow_never_errs (w : World) (loc : Local) :
    (∀ (uri : String) (workflow : YAMLDocument) (agents : List YAMLDocument) (v : RunValue)
        (e : Option String),
      runWorkflow w loc uri workflow agents = .ret (v, e) → e = none) ∧
    (∀ (uri : String) (workflow : YAMLDocument) (agents : List YAMLDocument) (err : String),
      w.file = DotEnvFile.unloadable err →
      runWorkflow w loc uri workflow agents =
        .ret (.failure ("failed to get MCP server URI: failed to load .env file: " ++ err),
          none)) ∧
    (∀ (uri serverURI : String) (workflow : YAMLDocument) (agents : List YAMLDocument)
        (ws e : String),
      GetMaestroMCPServerURI w.file w.env uri = .ok serverURI → w.openErr = none →
      w.transport.initErr = some e → loc.marshal workflow = some ws →
      runWorkflow w loc uri workflow agents =
        .ret (.failure ("failed to query vector database: " ++
          (if isUnreachable e then unreachableMessage serverURI
            else "failed to initialize MCP client: " ++ e)), none)) ∧
    (∀ (uri serverURI : String) (workflow : YAMLDocument) (agents : List YAMLDocument)
        (ws e : String),
      GetMaestroMCPServerURI w.file w.env uri = .ok serverURI → w.openErr = none →
      w.transport.initErr = none → loc.marshal workflow = some ws →
      (∀ method params, w.transport.callTool method params = .error e) →
      runWorkflow w loc uri workflow agents =
        .ret (.failure ("failed to query vector database: " ++
          (if isUnreachable e then unreachableMessage serverURI
            else "failed to call MCP tool run_workflow: " ++ e)), none)) ∧
    (∀ (c : RunCommand) (first : YAMLDocument) (others agentsYaml : List YAMLDocument)
        (err : String),
      ParseYAML (loc.parse c.workflowFile) = .ret (.ok (first :: others)) →
      c.parseAgents loc = .ret (.ok agentsYaml) →
      runWorkflow w loc c.mcpServerURI
          (if c.prompt then setTemplatePrompt first loc.userPrompt else first) agentsYaml
        = .ret (.failure err, none) →
      c.Run w loc =
        (.panic "interface conversion: interface \x7b\x7d is *fmt.wrapError, not *common.MCPResponse",
          none)) ∧
    (∀ (c : RunCommand) (first : YAMLDocument) (others agentsYaml : List YAMLDocument)
        (serverURI ws e : String),
      ParseYAML (loc.parse c.workflowFile) = .ret (.ok (first :: others)) →
      c.parseAgents loc = .ret (.ok agentsYaml) →
      GetMaestroMCPServerURI w.file w.env c.mcpServerURI = .ok serverURI →
      w.openErr = none →
      loc.marshal (if c.prompt then setTemplatePrompt first loc.userPrompt else first)
        = some ws →
      (w.transport.initErr = some e ∨
        (w.transport.initErr = none ∧
          ∀ method params, w.transport.callTool method params = .error e)) →
      c.Run w loc =
        (.panic "interface conversion: interface \x7b\x7d is *fmt.wrapError, not *common.MCPResponse",
          none)) ∧
    (∀ (c : RunCommand) (entry : LogEntry),
      (c.Run w loc).2 = some entry → entry.status = "success") := by
  have hrefused : ∀ (uri serverURI : String) (workflow : YAMLDocument)
      (agents : List YAMLDocument) (ws e : String),
      GetMaestroMCPServerURI w.file w.env uri = .ok serverURI → w.openErr = none →
      w.transport.initErr = some e → loc.marshal workflow = some ws →
      runWorkflow w loc uri workflow agents =
        .ret (.failure ("failed to query vector database: " ++
          (if isUnreachable e then unreachableMessage serverURI
            else "failed to initialize MCP client: " ++ e)), none) := by
    intro uri serverURI workflow agents ws e hget hopen hinit hm
    unfold runWorkflow
    simp only [hget]
    rw [deferClose_opened w serverURI hopen]
    simp only [YamlToString, List.filterMap_cons, hm, List.filterMap_nil, sliceIndex,
      List.get?_cons_zero]
    simp only [hopen, NewMCPClient, callThrough, CallMCPServer, hinit, Bool.not_false,
      if_true]
    by_cases hu : isUnreachable e = true
    · simp only [hu, if_true]
    · simp only [hu, Bool.false_eq_true, if_false]
  have hfailed : ∀ (uri serverURI : String) (workflow : YAMLDocument)
      (agents : List YAMLDocument) (ws e : String),
      GetMaestroMCPServerURI w.file w.env uri = .ok serverURI → w.openErr = none →
      w.transport.initErr = none → loc.marshal workflow = some ws →
      (∀ method params, w.transport.callTool method params = .error e) →
      runWorkflow w loc uri workflow agents =
        .ret (.failure ("failed to query vector database: " ++
          (if isUnreachable e then unreachableMessage serverURI
            else "failed to call MCP tool run_workflow: " ++ e)), none) := by
    intro uri serverURI workflow agents ws e hget hopen hinit hm hcall
    unfold runWorkflow
    simp only [hget]
    rw [deferClose_opened w serverURI hopen]
    simp only [YamlToString, List.filterMap_cons, hm, List.filterMap_nil, sliceIndex,
      List.get?_cons_zero]
    simp only [hopen, NewMCPClient, callThrough, CallMCPServer, hinit, Bool.not_false,
      if_true, hcall]
    by_cases hu : isUnreachable e = true
    · simp only [hu, if_true]
    · simp only [hu, Bool.false_eq_true, if_false]
      simp [String.append_assoc]
  refine ⟨?_, ?_, hrefused, hfailed, ?_, ?_, ?_⟩
  · intro uri workflow agents v e h
    exact runWorkflow_err_nil w loc uri workflow agents v e h
  · intro uri workflow agents err hf
    simp only [runWorkflow, GetMaestroMCPServerURI, godotenvLoad, hf]
    rw [← String.append_assoc]
    rfl
  · intro c first others agentsYaml err hp ha hr
    rw [Run_of_parsed c w loc first others agentsYaml hp ha, hr]
    rfl
  · intro c first others agentsYaml serverURI ws e hp ha hget hopen hm hfail
    rw [Run_of_parsed c w loc first others agentsYaml hp ha]
    rcases hfail with hi | ⟨hi, hcall⟩
    · rw [hrefused c.mcpServerURI serverURI _ agentsYaml ws e hget hopen hi hm]
      rfl
    · rw [hfailed c.mcpServerURI serverURI _ agentsYaml ws e hget hopen hi hm hcall]
      rfl
  · intro c entry h
    exact Run_never_logs_error c w loc entry h

/-- Witness of C24: the server is down, so the handshake of the new session is refused:
`runWorkflow` returns the unreachable error under "result" with a nil error, and `Run`
panics on the assertion and logs nothing; so it does when the `.env` file does not load
and when the call itself is refused. -/
theorem runWorkflow_never_errs_witness :
    runWorkflow
        { file := .missing, env := [], openErr := none,
          transport := handshakeFails "dial tcp 127.0.0.1:8040: connect: connection refused",
          transportClose := none, unmarshal := json.Unmarshal }
        localWorkflow "" [("kind", .string "Workflow")] [] =
      .ret (.failure "failed to query vector database: MCP server could not be reached at http://localhost:8040/mcp. Please ensure the server is running and accessible",
        none) ∧
    runDemo.Run
        { file := .missing, env := [], openErr := none,
          transport := handshakeFails "dial tcp 127.0.0.1:8040: connect: connection refused",
          transportClose := none, unmarshal := json.Unmarshal }
        localWorkflow =
      (.panic "interface conversion: interface \x7b\x7d is *fmt.wrapError, not *common.MCPResponse",
        none) ∧
    runDemo.Run
        { file := .unloadable "unexpected character", env := [], openErr := none,
          transport := replyWith [], transportClose := none, unmarshal := json.Unmarshal }
        localWorkflow =
      (.panic "interface conversion: interface \x7b\x7d is *fmt.wrapError, not *common.MCPResponse",
        none) ∧
    runWorkflow
        { file := .missing, env := [], openErr := none,
          transport := callFails "connection refused", transportClose := none,
          unmarshal := json.Unmarshal }
        localWorkflow "" [("kind", .string "Workflow")] [] =
      .ret (.failure "failed to query vector database: MCP server could not be reached at http://localhost:8040/mcp. Please ensure the server is running and accessible",
        none) :=
  ⟨(runWorkflow_never_errs
      { file := .missing, env := [], openErr := none,
        transport := handshakeFails "dial tcp 127.0.0.1:8040: connect: connection refused",
        transportClose := none, unmarshal := json.Unmarshal }
      localWorkflow).2.2.1 "" "http://localhost:8040/mcp" [("kind", .string "Workflow")] []
      "\x7b\x7d" "dial tcp 127.0.0.1:8040: connect: connection refused" rfl rfl rfl rfl,
    (runWorkflow_never_errs
      { file := .missing, env := [], openErr := none,
        transport := handshakeFails "dial tcp 127.0.0.1:8040: connect: connection refused",
        transportClose := none, unmarshal := json.Unmarshal }
      localWorkflow).2.2.2.2.2.1 runDemo _ [] [] "http://localhost:8040/mcp" "\x7b\x7d"
      "dial tcp 127.0.0.1:8040: connect: connection refused" rfl rfl rfl rfl rfl
      (Or.inl rfl),
    (runWorkflow_never_errs
      { file := .unloadable "unexpected character", env := [], openErr := none,
        transport := replyWith [], transportClose := none, unmarshal := json.Unmarshal }
      localWorkflow).2.2.2.2.1 runDemo _ [] [] _ rfl rfl rfl,
    (runWorkflow_never_errs
      { file := .missing, env := [], openErr := none,
        transport := callFails "connection refused", transportClose := none,
        unmarshal := json.Unmarshal }
      localWorkflow).2.2.2.1 "" "http://localhost:8040/mcp" [("kind", .string "Workflow")] []
      "\x7b\x7d" "connection refused" rfl rfl rfl rfl (fun _ _ => rfl)⟩

/-- C25: `RunCommand.Run` handles only one shape of success payload. Once the files are
parsed, the server is reached and the tool call yields a reply, `Run` returns nil if and
only if the `Result` of the response is absent or is a JSON object whose "final_prompt"
is a string; for every other payload it panics on an unchecked assertion and logs
nothing. -/
theorem Run_success_payload (c : RunCommand) (w : World) (loc : Local)
    (first : YAMLDocument) (others agentsYaml : List YAMLDocument) (ws serverURI : String)
    (reply : Option CallToolResult)
    (hworkflow : ParseYAML (loc.parse c.workflowFile) = .ret (.ok (first :: others)))
    (hagents : c.parseAgents loc = .ret (.ok agentsYaml))
    (hget : GetMaestroMCPServerURI w.file w.env c.mcpServerURI = .ok serverURI)
    (hopen : w.openErr = none) (hinit : w.transport.initErr = none)
    (hmarshal :
      loc.marshal (if c.prompt then setTemplatePrompt first loc.userPrompt else first)
        = some ws)
    (hreply : ∀ method params, w.transport.callTool method params = .ok reply) :
    ((c.Run w loc).1 = .ret none ↔
      ((convertResponse w.unmarshal reply).Result = GoValue.nil ∨
        ∃ kvs s, (convertResponse w.unmarshal reply).Result = GoValue.map kvs ∧
          mapIndex kvs "final_prompt" = GoValue.string s)) ∧
    ((c.Run w loc).1 ≠ .ret none →
      ∃ msg, (c.Run w loc).1 = .panic msg ∧ (c.Run w loc).2 = none) := by
  rw [Run_of_parsed c w loc first others agentsYaml hworkflow hagents,
    runWorkflow_of_reply w loc c.mcpServerURI serverURI _ agentsYaml ws reply hget hopen hinit
      hmarshal hreply]
  simp only [finishRun]
  cases hres : (convertResponse w.unmarshal reply).Result with
  | map kvs =>
    cases hfp : mapIndex kvs "final_prompt" <;> simp [hfp]
  | _ => simp

/-- Witness of C25: the reply `{"final_prompt":"ok"}` is logged with output "ok" and `Run`
returns nil (the workflow name is logged empty, for `Run` looks for a metadata of type
`map[string]interface{}` and the document holds a `common.YAMLDocument`); the reply
`plain text result` makes `Run` panic. -/
theorem Run_success_payload_witness :
    runDemo.Run (worldReplies [.text "\x7b\"final_prompt\":\"ok\"\x7d"]) localWorkflow =
      (.ret none,
        some
          { workflowName := "", prompt := "", output := "ok", modelsUsed := [],
            status := "success" }) ∧
    ∃ msg, (runDemo.Run (worldReplies [.text "plain text result"]) localWorkflow).1
        = .panic msg ∧
      (runDemo.Run (worldReplies [.text "plain text result"]) localWorkflow).2 = none :=
  ⟨rfl,
    (Run_success_payload runDemo (worldReplies [.text "plain text result"]) localWorkflow
      _ [] [] "\x7b\x7d" "http://localhost:8040/mcp" _ rfl rfl rfl rfl rfl rfl
      (fun _ _ => rfl)).2 (by decide)⟩
